import Mathlib

/-!
# TransparentTransmissionBuffer (hMailServer)

A shallow embedding of
`hmailserver/source/Server/Common/Util/TransparentTransmissionBuffer.cpp`:
the SMTP DATA-phase buffer that accumulates bytes, detects the end-of-data
terminator, carves ready segments at line boundaries, and (un)stuffs leading
dots before handing a segment to a connection or a file.

Bytes are natural numbers (every theorem therefore holds in particular for
values below 256).  The byte buffer is a list, the file is an open flag with
the bytes appended so far, the weak connection handle is an optional queue of
enqueued segments (`none` once the handle has expired).
-/

namespace HM

/-- One byte of a buffer. -/
abbrev Byte := Nat

/-- The character `'.'`. -/
def dot : Byte := 46

/-- The character `'\r'`. -/
def cr : Byte := 13

/-- The character `'\n'`. -/
def lf : Byte := 10

/-! ## Collaborators that are declared outside the translated file -/

/-- Modelled from the spec: `ByteBuffer::GetCharBuffer()[i]`, raw read access to
the byte container.  Every read of the translated code is guarded to be in
bounds; the default `0` is never observed there. -/
def byteAt (buf : List Byte) (i : Nat) : Byte := buf.getD i 0

/-- Modelled from the spec: `ByteBuffer::DecreaseSize(n)`, which trims the
trailing `n` bytes of the byte container. -/
def DecreaseSize (buf : List Byte) (n : Nat) : List Byte := buf.take (buf.length - n)

/-- Modelled from the spec: `ByteBuffer::Empty(iRemaining)`, which removes bytes
from the front of the byte container and keeps its last `iRemaining` bytes. -/
def Empty (buf : List Byte) (iRemaining : Nat) : List Byte := buf.drop (buf.length - iRemaining)

/-- Modelled from the spec: the file collaborator (open, append-write, close,
is-open query).  `content` is what has been appended so far. -/
structure File where
  isOpen : Bool
  content : List Byte
deriving DecidableEq, Repr

/-- Modelled from the spec: `File::Write`, an append-write; nothing is written
through a handle that is not open. -/
def File.Write (f : File) (data : List Byte) : File :=
  if f.isOpen then { f with content := f.content ++ data } else f

/-- Modelled from the spec: `File::Close`. -/
def File.Close (f : File) : File := { f with isOpen := false }

/-! ## The buffer object -/

/-- The members of `TransparentTransmissionBuffer`.  `tcp_connection_` is the
weak handle: `some q` when `lock()` yields the connection whose write queue is
`q`, `none` when the connection is gone.  `data_sent_` and `max_size_kb_` are
C++ `int`s: integers here, with the one addition the source makes on them
(`data_sent_ += iBufferSize` in `Append`) wrapped to 32 bits by `wrapInt32`. -/
structure TransparentTransmissionBuffer where
  is_sending_ : Bool
  buffer_ : List Byte
  transmission_ended_ : Bool
  last_send_ended_with_newline_ : Bool
  data_sent_ : Int
  max_size_kb_ : Int
  cancel_transmission_ : Bool
  cancel_message_ : String
  tcp_connection_ : Option (List (List Byte))
  file_ : File
deriving DecidableEq, Repr

/-- The constructor `TransparentTransmissionBuffer(bool bSending)`: an empty
buffer, no sink yet. -/
def construct (bSending : Bool) : TransparentTransmissionBuffer where
  is_sending_ := bSending
  buffer_ := []
  transmission_ended_ := false
  last_send_ended_with_newline_ := false
  data_sent_ := 0
  max_size_kb_ := 0
  cancel_transmission_ := false
  cancel_message_ := ""
  tcp_connection_ := none
  file_ := ⟨false, []⟩

/-- The overload `Initialize(std::weak_ptr<TCPConnection>)`; `queue` is the write
queue of the connection behind the handle. -/
def InitializeConnection (s : TransparentTransmissionBuffer) (queue : List (List Byte)) :
    Bool × TransparentTransmissionBuffer :=
  (true, { s with tcp_connection_ := some queue, data_sent_ := 0 })

/-- The overload `Initialize(const String &sFilename)`.  `opened` is the outcome
of `file_.Open(sFilename, File::OTAppend)`: `some existing` when the file could
be opened (holding `existing`), `none` when it could not. -/
def InitializeFile (s : TransparentTransmissionBuffer) (opened : Option (List Byte)) :
    Bool × TransparentTransmissionBuffer :=
  match opened with
  | none => (false, s)
  | some existing => (true, { s with file_ := ⟨true, existing⟩, data_sent_ := 0 })

/-- The method `SetMaxSizeKB`. -/
def SetMaxSizeKB (s : TransparentTransmissionBuffer) (maxSize : Int) :
    TransparentTransmissionBuffer :=
  { s with max_size_kb_ := maxSize }

/-- The value a 32-bit two's-complement `int` holds after an addition whose
exact result is `x`: `x` reduced modulo 2^32 into -2^31 .. 2^31 - 1. -/
def wrapInt32 (x : Int) : Int := (x + 2147483648) % 4294967296 - 2147483648

/-- The method `Append(const BYTE *pBuffer, int iBufferSize)` for a non-null
`pBuffer` holding `iBufferSize` bytes (the null-pointer branches only report
and throw; `buffer_` is allocated by the constructor). -/
def Append (s : TransparentTransmissionBuffer) (pBuffer : List Byte) :
    TransparentTransmissionBuffer :=
  if pBuffer.length = 0 then s
  else
    let s1 := { s with data_sent_ := wrapInt32 (s.data_sent_ + pBuffer.length),
                       buffer_ := s.buffer_ ++ pBuffer }
    if 3 ≤ s1.buffer_.length ∧ s1.is_sending_ = false then
      let iSize := s1.buffer_.length
      let bDotCRLFOnEmptyLine : Bool :=
        decide (byteAt s1.buffer_ 0 = dot ∧ byteAt s1.buffer_ 1 = cr ∧ byteAt s1.buffer_ 2 = lf)
      let bLineBeginnningWithDotCRLF : Bool :=
        decide (5 ≤ s1.buffer_.length ∧
          (byteAt s1.buffer_ (iSize - 5) = cr ∧
           byteAt s1.buffer_ (iSize - 4) = lf ∧
           byteAt s1.buffer_ (iSize - 3) = dot ∧
           byteAt s1.buffer_ (iSize - 2) = cr ∧
           byteAt s1.buffer_ (iSize - 1) = lf))
      if bDotCRLFOnEmptyLine || bLineBeginnningWithDotCRLF then
        { s1 with buffer_ := DecreaseSize s1.buffer_ 3, transmission_ended_ := true }
      else s1
    else s1

/-- The method `GetRequiresFlush`. -/
def GetRequiresFlush (s : TransparentTransmissionBuffer) : Bool :=
  if 40000 < s.buffer_.length ∨ s.transmission_ended_ = true then true else false

/-- The method `GetSize`: the `int` member `data_sent_`, which `Append` keeps
within 32 bits. -/
def GetSize (s : TransparentTransmissionBuffer) : Int := s.data_sent_

/-- One pass of the loop body of `InsertTransmissionPeriod_` at index `i`:
`out` is what has been written to the output array so far. -/
def insertStep (pInBuffer : List Byte) (out : List Byte) (i : Nat) : List Byte :=
  let c := byteAt pInBuffer i
  let out1 :=
    if c = dot then
      if i = 0 then out ++ [dot]
      else if 2 < i ∧ byteAt pInBuffer (i - 1) = lf then out ++ [dot]
      else out
    else out
  out1 ++ [c]

/-- The method `InsertTransmissionPeriod_`: the bytes the buffer holds after the
call (the loop runs `i = 0 .. iInBufferSize - 1`). -/
def InsertTransmissionPeriod_ (pBuffer : List Byte) : List Byte :=
  (List.range pBuffer.length).foldl (insertStep pBuffer) []

/-- One pass of the loop body of `RemoveTransmissionPeriod_` at index `i`. -/
def removeStep (pInBuffer : List Byte) (out : List Byte) (i : Nat) : List Byte :=
  let c := byteAt pInBuffer i
  if c = dot then
    if i = 0 then out
    else if 2 < i ∧ byteAt pInBuffer (i - 1) = lf then out
    else out ++ [c]
  else out ++ [c]

/-- The method `RemoveTransmissionPeriod_`: the bytes the buffer holds after the
call. -/
def RemoveTransmissionPeriod_ (pBuffer : List Byte) : List Byte :=
  (List.range pBuffer.length).foldl (removeStep pBuffer) []

/-- The method `SaveToFile_`. -/
def SaveToFile_ (s : TransparentTransmissionBuffer) (pBuffer : List Byte) :
    Bool × TransparentTransmissionBuffer :=
  if 0 < s.max_size_kb_ ∧ s.max_size_kb_ < Int.tdiv s.data_sent_ 1024 then (false, s)
  else if s.cancel_transmission_ = false then (true, { s with file_ := s.file_.Write pBuffer })
  else (true, s)

/-- The backward search loop of `Flush`
(`for (int i = bufferSize - 1; i >= searchEndPos; i--)`).  The last argument is
`i + 1`, so that the loop variable may reach `-1`; the result is the index at
which the loop body fires, if it does. -/
def findSplit (pBuffer : List Byte) (bForce : Bool) (searchEndPos : Nat) : Nat → Option Nat
  | 0 => none
  | i + 1 =>
    if i < searchEndPos then none
    else if byteAt pBuffer i = lf ∨ bForce = true then some i
    else findSplit pBuffer bForce searchEndPos i

/-- What a call of `Flush` yields: its return value, the segment copied out of
the buffer before the transform (`pOutBuffer` as filled at the `Add` call, when
the loop body fires), and the object afterwards. -/
structure FlushResult where
  dataProcessed : Bool
  ready : Option (List Byte)
  state : TransparentTransmissionBuffer
deriving DecidableEq, Repr

/-- The body of the search loop of `Flush` once it fires at index `i`: carve,
transform, dispatch. -/
def flushAt (s1 : TransparentTransmissionBuffer) (i : Nat) : FlushResult :=
  let s2 := { s1 with last_send_ended_with_newline_ := decide (byteAt s1.buffer_ i = lf) }
  let iCopySize := i + 1
  let pOutBuffer := s2.buffer_.take iCopySize
  let iRemaining := s2.buffer_.length - iCopySize
  let s3 := { s2 with buffer_ := Empty s2.buffer_ iRemaining }
  let parsed :=
    if s3.is_sending_ then InsertTransmissionPeriod_ pOutBuffer
    else RemoveTransmissionPeriod_ pOutBuffer
  let s4 :=
    if s3.is_sending_ then
      match s3.tcp_connection_ with
      | some queue => { s3 with tcp_connection_ := some (queue ++ [parsed]) }
      | none => s3
    else (SaveToFile_ s3 parsed).2
  ⟨true, some pOutBuffer, s4⟩

/-- The method `Flush(bool bForce)`.  `MAX_LINE_LENGTH` is a constant defined
outside the translated file and is a parameter here. -/
def Flush (MAX_LINE_LENGTH : Nat) (s : TransparentTransmissionBuffer) (bForce : Bool) :
    FlushResult :=
  if GetRequiresFlush s = false ∧ bForce = false then ⟨false, none, s⟩
  else
    let tooLong : Bool := decide (MAX_LINE_LENGTH < s.buffer_.length)
    let s1 :=
      if tooLong then
        { s with cancel_transmission_ := true,
                 cancel_message_ := "Too long line was received. Transmission aborted." }
      else s
    let bForce1 := bForce || tooLong
    let bufferSize := s1.buffer_.length
    let maxLineLength := MAX_LINE_LENGTH
    let searchEndPos := bufferSize - maxLineLength
    let r : FlushResult :=
      match findSplit s1.buffer_ bForce1 searchEndPos bufferSize with
      | some i => flushAt s1 i
      | none => ⟨false, none, s1⟩
    if r.state.transmission_ended_ = true ∧ r.state.file_.isOpen = true then
      { r with state := { r.state with file_ := r.state.file_.Close } }
    else r

/-! ## Definitions used to state and prove the properties -/

/-- The member `data_sent_` after an `Append` of `n` bytes on an object that
held the count `x`: untouched when `n` is 0 (the early return), the wrapped
sum otherwise. -/
def countAfter (x : Int) (n : Nat) : Int :=
  if n = 0 then x else wrapInt32 (x + n)

/-- Structural form of the stuffing loop: the output for the remaining input
`l`, where `i` is the index of its first byte and `prev` the byte before it. -/
def stuffFrom (i : Nat) (prev : Byte) : List Byte → List Byte
  | [] => []
  | c :: t =>
    (if c = dot ∧ (i = 0 ∨ (2 < i ∧ prev = lf)) then [dot, c] else [c]) ++ stuffFrom (i + 1) c t

/-- Structural form of the un-stuffing loop, with the same conventions. -/
def unstuffFrom (i : Nat) (prev : Byte) : List Byte → List Byte
  | [] => []
  | c :: t =>
    (if c = dot ∧ (i = 0 ∨ (2 < i ∧ prev = lf)) then [] else [c]) ++ unstuffFrom (i + 1) c t

/-- The data is made only of lines that each end in CR LF: it is empty or ends
with CR LF, and every LF in it is immediately preceded by CR. -/
def crlfTerminatedLines (data : List Byte) : Prop :=
  (data = [] ∨ data.drop (data.length - 2) = [cr, lf]) ∧
  ∀ i, i < data.length → byteAt data i = lf → 0 < i ∧ byteAt data (i - 1) = cr

instance (data : List Byte) : Decidable (crlfTerminatedLines data) := by
  unfold crlfTerminatedLines; infer_instance

/-- The two terminator detections in the words of the specification: the entire
buffer is exactly '.' CR LF, or the last 5 bytes of the buffer are
CR LF '.' CR LF. -/
def terminatorSeen (b : List Byte) : Prop :=
  b = [dot, cr, lf] ∨ b.drop (b.length - 5) = [cr, lf, dot, cr, lf]

instance (b : List Byte) : Decidable (terminatorSeen b) := by
  unfold terminatorSeen; infer_instance

/-- The abuse check at the head of `Flush`: the object after the test of the
buffer size against `MAX_LINE_LENGTH`. -/
def abuseCheck (M : Nat) (s : TransparentTransmissionBuffer) : TransparentTransmissionBuffer :=
  if decide (M < s.buffer_.length) then
    { s with cancel_transmission_ := true,
             cancel_message_ := "Too long line was received. Transmission aborted." }
  else s

/-- The tail of `Flush`: the file is closed when the transmission has ended and
the file is open. -/
def closeWhenEnded (r : FlushResult) : FlushResult :=
  if r.state.transmission_ended_ = true ∧ r.state.file_.isOpen = true then
    { r with state := { r.state with file_ := r.state.file_.Close } }
  else r

/-- The caller's loop over the chunks of the input: each chunk is appended and
followed by `Flush(false)`. -/
def feedChunks (M : Nat) (s : TransparentTransmissionBuffer) :
    List (List Byte) → TransparentTransmissionBuffer
  | [] => s
  | c :: cs => feedChunks M (Flush M (Append s c) false).state cs

/-- The chunked run: the chunks are fed in order, then one final `Flush(true)`. -/
def runChunked (M : Nat) (s : TransparentTransmissionBuffer) (chunks : List (List Byte)) :
    TransparentTransmissionBuffer :=
  (Flush M (feedChunks M s chunks) true).state

/-- The single-call run: one `Append` of the whole input, `Flush(false)`, then
`Flush(true)`. -/
def runWhole (M : Nat) (s : TransparentTransmissionBuffer) (input : List Byte) :
    TransparentTransmissionBuffer :=
  (Flush M (Flush M (Append s input) false).state true).state

/-- The concatenation of the segments enqueued on the connection. -/
def delivered (s : TransparentTransmissionBuffer) : List Byte :=
  (s.tcp_connection_.getD []).flatten

/-- A freshly constructed sending buffer initialised with a live connection
whose write queue is empty. -/
def freshSender : TransparentTransmissionBuffer :=
  (InitializeConnection (construct true) []).2

/-- The chunking-independence property for one way of splitting an input. -/
def chunkIndependent (M : Nat) (chunks : List (List Byte)) : Prop :=
  delivered (runChunked M freshSender chunks) = delivered (runWhole M freshSender chunks.flatten)

instance (M : Nat) (chunks : List (List Byte)) : Decidable (chunkIndependent M chunks) := by
  unfold chunkIndependent; infer_instance

/-- The output contains the 5 consecutive bytes CR LF '.' CR LF, at offset `k`
for some `k`. -/
def containsTerminator (out : List Byte) : Prop :=
  ∃ k, k < out.length ∧ (out.drop k).take 5 = [cr, lf, dot, cr, lf]

instance (out : List Byte) : Decidable (containsTerminator out) := by
  unfold containsTerminator; infer_instance

/-- Scan for the longest run of consecutive bytes none of which is a line feed:
`cur` is the length of the run being scanned, `best` the longest closed run. -/
def longestRunAux : List Byte → Nat → Nat → Nat
  | [], cur, best => max cur best
  | c :: t, cur, best =>
    if c = lf then longestRunAux t 0 (max cur best) else longestRunAux t (cur + 1) best

/-- The length of the longest line of the buffer: the longest run of consecutive
bytes none of which is a line feed. -/
def longestLine (buf : List Byte) : Nat := longestRunAux buf 0 0

/-- A line of `n` bytes `'a'` closed by a line feed. -/
def lineOf (n : Nat) : List Byte := List.replicate n 97 ++ [lf]

/-- A fresh receiving buffer with an open, empty file and a quota of 1 KB. -/
def quotaReceiver : TransparentTransmissionBuffer :=
  SetMaxSizeKB (InitializeFile (construct false) (some [])).2 1

/-- The object `quotaReceiver` after a line of `a` bytes has been appended and
flushed with force and a line of `b` bytes has been appended. -/
def quotaReceiverAfter (M a b : Nat) : TransparentTransmissionBuffer :=
  Append (Flush M (Append quotaReceiver (lineOf a)) true).state (lineOf b)

/-- The object `quotaReceiver` once 2048 bytes have been accepted, with the line
`'a'` LF still in the buffer. -/
def quotaReceiverFull : TransparentTransmissionBuffer :=
  { quotaReceiver with data_sent_ := 2048, buffer_ := [97, lf] }

/-- The same object once its connection handle has expired (`lock()` yields
nothing). -/
def dropConnection (s : TransparentTransmissionBuffer) : TransparentTransmissionBuffer :=
  { s with tcp_connection_ := none }

/-- The positional condition shared by both transforms at index `i` of the
input: the byte is a dot, and it is the first byte or follows a line feed
beyond the first two bytes. -/
def leadingDotAt (pInBuffer : List Byte) (i : Nat) : Bool :=
  decide (byteAt pInBuffer i = dot ∧ (i = 0 ∨ (2 < i ∧ byteAt pInBuffer (i - 1) = lf)))

/-- The number of indices below `k` at which the positional condition holds:
the dots duplicated by stuffing, or dropped by un-stuffing, in the first `k`
passes of the loop. -/
def leadingDots (pInBuffer : List Byte) (k : Nat) : Nat :=
  (List.range k).countP (leadingDotAt pInBuffer)

/-- One call made by the owner of the buffer: `Append` of an input, or `Flush`
with a force flag. -/
inductive Call where
  | append (pBuffer : List Byte)
  | flush (bForce : Bool)
deriving DecidableEq, Repr

/-- The record of a run of calls: the object, the ready segments carved so far
(in order, as they are before the transform) and the inputs appended so far. -/
structure Run where
  state : TransparentTransmissionBuffer
  carved : List (List Byte)
  inputs : List (List Byte)
deriving DecidableEq, Repr

/-- One call on a run. -/
def step (M : Nat) (r : Run) : Call → Run
  | Call.append pBuffer => ⟨Append r.state pBuffer, r.carved, r.inputs ++ [pBuffer]⟩
  | Call.flush bForce =>
    ⟨(Flush M r.state bForce).state, r.carved ++ (Flush M r.state bForce).ready.toList, r.inputs⟩

/-- A sequence of calls, in order, on a run. -/
def runCalls (M : Nat) (r : Run) (calls : List Call) : Run :=
  calls.foldl (step M) r

/-- The run that starts at the object `s`, with nothing carved and nothing
appended yet. -/
def startRun (s : TransparentTransmissionBuffer) : Run := ⟨s, [], []⟩

/-- The inputs passed to `Append` in a sequence of calls, in order. -/
def inputsOf : List Call → List (List Byte)
  | [] => []
  | Call.append pBuffer :: calls => pBuffer :: inputsOf calls
  | Call.flush _ :: calls => inputsOf calls

/-- The write decision in the words of the specification: cancelled is false, and
it is not the case that a quota is set and `bytes_total / 1024` (integer
division) exceeds it. -/
def writeAllowed (s : TransparentTransmissionBuffer) : Bool :=
  decide (s.cancel_transmission_ = false ∧
    ¬ (0 < s.max_size_kb_ ∧ s.max_size_kb_ < Int.tdiv s.data_sent_ 1024))

/-! ## The transform in structural form -/

theorem byteAt_append_length (pre : List Byte) (c : Byte) (t : List Byte) :
    byteAt (pre ++ c :: t) pre.length = c := by
  have h : (pre ++ c :: t)[pre.length]? = some c := by
    rw [List.getElem?_append_right (le_refl _)]; simp
  simp [byteAt, List.getD_eq_getElem?_getD, h]

theorem byteAt_append_left (pre suf : List Byte) (i : Nat) (h : i < pre.length) :
    byteAt (pre ++ suf) i = byteAt pre i := by
  simp [byteAt, List.getD_eq_getElem?_getD, List.getElem?_append_left h]

theorem byteAt_snoc (pre : List Byte) (c : Byte) :
    byteAt (pre ++ [c]) (pre.length + 1 - 1) = c := by
  simp [byteAt, List.getD_eq_getElem?_getD]

theorem foldl_insertStep (suf : List Byte) :
    ∀ (pre acc : List Byte),
      (List.range' pre.length suf.length).foldl (insertStep (pre ++ suf)) acc
        = acc ++ stuffFrom pre.length (byteAt pre (pre.length - 1)) suf := by
  induction suf with
  | nil => intro pre acc; simp [stuffFrom]
  | cons c t ih =>
    intro pre acc
    have hstep := ih (pre ++ [c])
    simp only [List.append_assoc, List.singleton_append, List.length_append, List.length_singleton,
      byteAt_snoc] at hstep
    simp only [List.length_cons, List.range'_succ, List.foldl_cons, hstep, stuffFrom]
    have hc : byteAt (pre ++ c :: t) pre.length = c := byteAt_append_length pre c t
    unfold insertStep
    simp only [hc]
    by_cases hd : c = dot
    · by_cases h0 : pre.length = 0
      · simp [hd, h0]
      · have hlt : pre.length - 1 < pre.length := by omega
        rw [byteAt_append_left pre (c :: t) _ hlt]
        by_cases hcond : 2 < pre.length ∧ byteAt pre (pre.length - 1) = lf
        · simp [hd, h0, hcond]
        · simp [hd, h0, hcond]
    · simp [hd]

theorem InsertTransmissionPeriod_eq (l : List Byte) :
    InsertTransmissionPeriod_ l = stuffFrom 0 0 l := by
  have h := foldl_insertStep l [] []
  simpa [InsertTransmissionPeriod_, List.range_eq_range', byteAt] using h



theorem foldl_removeStep (suf : List Byte) :
    ∀ (pre acc : List Byte),
      (List.range' pre.length suf.length).foldl (removeStep (pre ++ suf)) acc
        = acc ++ unstuffFrom pre.length (byteAt pre (pre.length - 1)) suf := by
  induction suf with
  | nil => intro pre acc; simp [unstuffFrom]
  | cons c t ih =>
    intro pre acc
    have hstep := ih (pre ++ [c])
    simp only [List.append_assoc, List.singleton_append, List.length_append, List.length_singleton,
      byteAt_snoc] at hstep
    simp only [List.length_cons, List.range'_succ, List.foldl_cons, hstep, unstuffFrom]
    have hc : byteAt (pre ++ c :: t) pre.length = c := byteAt_append_length pre c t
    unfold removeStep
    simp only [hc]
    by_cases hd : c = dot
    · by_cases h0 : pre.length = 0
      · simp [hd, h0]
      · have hlt : pre.length - 1 < pre.length := by omega
        rw [byteAt_append_left pre (c :: t) _ hlt]
        by_cases hcond : 2 < pre.length ∧ byteAt pre (pre.length - 1) = lf
        · simp [hd, h0, hcond]
        · simp [hd, h0, hcond]
    · simp [hd]

theorem RemoveTransmissionPeriod_eq (l : List Byte) :
    RemoveTransmissionPeriod_ l = unstuffFrom 0 0 l := by
  have h := foldl_removeStep l [] []
  simpa [RemoveTransmissionPeriod_, List.range_eq_range', byteAt] using h

theorem dot_ne_lf : dot ≠ lf := by decide

theorem unstuff_stuff_tail (l : List Byte) :
    ∀ (i j : Nat) (p : Byte), 2 < i → 2 < j → unstuffFrom j p (stuffFrom i p l) = l := by
  induction l with
  | nil => intro i j p _ _; simp [stuffFrom, unstuffFrom]
  | cons c t ih =>
    intro i j p hi hj
    have hi0 : i ≠ 0 := by omega
    have hj0 : j ≠ 0 := by omega
    by_cases hc : c = dot ∧ p = lf
    · obtain ⟨hc1, hc2⟩ := hc
      subst hc1 hc2
      have := ih (i + 1) (j + 1 + 1) dot (by omega) (by omega)
      simp [stuffFrom, unstuffFrom, hi, hj, hi0, hj0, dot_ne_lf, this]
    · have := ih (i + 1) (j + 1) c (by omega) (by omega)
      have hc' : ¬ (c = dot ∧ (i = 0 ∨ 2 < i ∧ p = lf)) := by
        rintro ⟨h1, h2⟩
        rcases h2 with h2 | h2
        · exact hi0 h2
        · exact hc ⟨h1, h2.2⟩
      have hc'' : ¬ (c = dot ∧ (j = 0 ∨ 2 < j ∧ p = lf)) := by
        rintro ⟨h1, h2⟩
        rcases h2 with h2 | h2
        · exact hj0 h2
        · exact hc ⟨h1, h2.2⟩
      simp only [stuffFrom, hc', if_false, List.singleton_append, unstuffFrom, hc'', this]

theorem roundtrip_iff (x : List Byte) :
    RemoveTransmissionPeriod_ (InsertTransmissionPeriod_ x) = x ↔
      ¬ ∃ t, x = dot :: lf :: dot :: t := by
  rw [InsertTransmissionPeriod_eq, RemoveTransmissionPeriod_eq]
  match x with
  | [] => simp [stuffFrom, unstuffFrom]
  | [c0] => by_cases h0 : c0 = dot <;> simp [stuffFrom, unstuffFrom, h0]
  | [c0, c1] => by_cases h0 : c0 = dot <;> simp [stuffFrom, unstuffFrom, h0]
  | c0 :: c1 :: c2 :: t =>
    by_cases h0 : c0 = dot
    · subst h0
      by_cases h12 : c2 = dot ∧ c1 = lf
      · obtain ⟨h2, h1⟩ := h12
        subst h2 h1
        have ht := unstuff_stuff_tail t 3 4 dot (by omega) (by omega)
        simp [stuffFrom, unstuffFrom, ht, dot_ne_lf]
      · have ht := unstuff_stuff_tail t 3 4 c2 (by omega) (by omega)
        have h12' : ¬ (c2 = dot ∧ (3 = 0 ∨ 2 < 3 ∧ c1 = lf)) := by
          rintro ⟨a, b⟩
          rcases b with b | b
          · omega
          · exact h12 ⟨a, b.2⟩
        have : ¬ (c1 = lf ∧ c2 = dot) := fun h => h12 ⟨h.2, h.1⟩
        simp [stuffFrom, unstuffFrom, ht, h12', h12, this]
    · have ht := unstuff_stuff_tail t 3 3 c2 (by omega) (by omega)
      simp [stuffFrom, unstuffFrom, ht, h0]

/-! ## C1: the round trip on CR LF terminated lines -/

/-- C1: for data made only of lines that each end in CR LF (empty or ending in
CR LF, every LF immediately preceded by CR), un-stuffing the stuffed data gives
the data back. -/
theorem C1_roundtrip_crlf_lines (data : List Byte) (h : crlfTerminatedLines data) :
    RemoveTransmissionPeriod_ (InsertTransmissionPeriod_ data) = data := by
  rw [roundtrip_iff]
  rintro ⟨t, rfl⟩
  have h1 := h.2 1 (by simp) (by simp [byteAt, lf])
  simp [byteAt, dot, cr] at h1

/-- C1 at the data CR LF '.' CR LF: a dot at offset 2 right after an initial
empty line. -/
theorem C1_roundtrip_crlf_lines_witness :
    crlfTerminatedLines [13, 10, 46, 13, 10] ∧
      RemoveTransmissionPeriod_ (InsertTransmissionPeriod_ [13, 10, 46, 13, 10])
        = [13, 10, 46, 13, 10] :=
  ⟨by decide, C1_roundtrip_crlf_lines [13, 10, 46, 13, 10] (by decide)⟩

/-! ## Append -/

theorem byteAt_append_add (pre suf : List Byte) (k : Nat) :
    byteAt (pre ++ suf) (pre.length + k) = byteAt suf k := by
  have h : (pre ++ suf)[pre.length + k]? = suf[k]? := by
    rw [List.getElem?_append_right (by omega)]; simp
  simp [byteAt, List.getD_eq_getElem?_getD, h]

/-- Appending input whose arrival makes the buffer end in CR LF '.' CR LF, in
the receiving direction: the last three bytes go and the transmission ends. -/
theorem Append_trailing_terminator (s : TransparentTransmissionBuffer) (d pre : List Byte)
    (hrecv : s.is_sending_ = false) (hd : d ≠ [])
    (hb : s.buffer_ ++ d = pre ++ [cr, lf, dot, cr, lf]) :
    Append s d = { s with data_sent_ := wrapInt32 (s.data_sent_ + d.length),
                          buffer_ := pre ++ [cr, lf],
                          transmission_ended_ := true } := by
  have hlen : d.length ≠ 0 := by
    intro h; exact hd (List.length_eq_zero.mp h)
  have e5 : byteAt (pre ++ [cr, lf, dot, cr, lf]) (pre.length + 5 - 5) = cr := by
    have := byteAt_append_add pre [cr, lf, dot, cr, lf] 0
    simpa [byteAt] using this
  have e4 : byteAt (pre ++ [cr, lf, dot, cr, lf]) (pre.length + 5 - 4) = lf := by
    have := byteAt_append_add pre [cr, lf, dot, cr, lf] 1
    have h : pre.length + 5 - 4 = pre.length + 1 := by omega
    rw [h, this]; simp [byteAt]
  have e3 : byteAt (pre ++ [cr, lf, dot, cr, lf]) (pre.length + 5 - 3) = dot := by
    have := byteAt_append_add pre [cr, lf, dot, cr, lf] 2
    have h : pre.length + 5 - 3 = pre.length + 2 := by omega
    rw [h, this]; simp [byteAt]
  have e2 : byteAt (pre ++ [cr, lf, dot, cr, lf]) (pre.length + 5 - 2) = cr := by
    have := byteAt_append_add pre [cr, lf, dot, cr, lf] 3
    have h : pre.length + 5 - 2 = pre.length + 3 := by omega
    rw [h, this]; simp [byteAt]
  have e1 : byteAt (pre ++ [cr, lf, dot, cr, lf]) (pre.length + 5 - 1) = lf := by
    have := byteAt_append_add pre [cr, lf, dot, cr, lf] 4
    have h : pre.length + 5 - 1 = pre.length + 4 := by omega
    rw [h, this]; simp [byteAt]
  have hdec : DecreaseSize (pre ++ [cr, lf, dot, cr, lf]) 3 = pre ++ [cr, lf] := by
    have h : (pre ++ [cr, lf, dot, cr, lf]) = (pre ++ [cr, lf]) ++ [dot, cr, lf] := by simp
    rw [DecreaseSize, h, List.take_left']
    simp
  simp only [Append, hlen, if_false, hb, hrecv, List.length_append, List.length_cons,
    List.length_nil, e5, e4, e3, e2, e1, hdec]
  simp




/-! ## C2: when Append ends the transmission -/

/-- C2 at the input '.' CR LF 'a' 'b' 'c' on a fresh receiving buffer: ended is
false before, the buffer after appending is neither exactly '.' CR LF nor ends
in CR LF '.' CR LF, and yet Append sets ended and trims the last three bytes
('a' 'b' 'c'): the first test of Append compares only the first three bytes. -/
theorem C2_prefix_dot_crlf_sets_ended :
    (construct false).transmission_ended_ = false ∧
    ¬ terminatorSeen ((construct false).buffer_ ++ [46, 13, 10, 97, 98, 99]) ∧
    (Append (construct false) [46, 13, 10, 97, 98, 99]).transmission_ended_ = true ∧
    (Append (construct false) [46, 13, 10, 97, 98, 99]).buffer_ = [46, 13, 10] := by
  decide

/-! ## C3: a single Append of a terminated transmission -/

/-- C3: on a receiving buffer that holds nothing yet, a single Append of an
input that is exactly '.' CR LF or ends with CR LF '.' CR LF sets ended and
leaves the input without its last three bytes in the buffer (nothing for
'.' CR LF, body CR LF for body CR LF '.' CR LF). -/
theorem C3_single_append_terminator (s : TransparentTransmissionBuffer) (d : List Byte)
    (hrecv : s.is_sending_ = false) (hfresh : s.buffer_ = [])
    (hd : d = [dot, cr, lf] ∨ ∃ body, d = body ++ [cr, lf, dot, cr, lf]) :
    (Append s d).transmission_ended_ = true ∧
    (Append s d).buffer_ = d.take (d.length - 3) ∧
    (d = [dot, cr, lf] → (Append s d).buffer_ = []) ∧
    (∀ body, d = body ++ [cr, lf, dot, cr, lf] → (Append s d).buffer_ = body ++ [cr, lf]) := by
  have key : (Append s d).transmission_ended_ = true ∧
      (Append s d).buffer_ = d.take (d.length - 3) := by
    rcases hd with hd | ⟨body, hd⟩
    · subst hd
      simp [Append, hfresh, hrecv, byteAt, DecreaseSize]
    · have hne : d ≠ [] := by subst hd; simp
      have hb : s.buffer_ ++ d = body ++ [cr, lf, dot, cr, lf] := by simp [hfresh, hd]
      rw [Append_trailing_terminator s d body hrecv hne hb]
      subst hd
      have h : (body ++ [cr, lf, dot, cr, lf]) = (body ++ [cr, lf]) ++ [dot, cr, lf] := by simp
      refine ⟨rfl, ?_⟩
      rw [h, List.take_left']
      simp
  refine ⟨key.1, key.2, ?_, ?_⟩
  · intro h; rw [key.2, h]; rfl
  · intro body h
    rw [key.2, h]
    have h2 : (body ++ [cr, lf, dot, cr, lf]) = (body ++ [cr, lf]) ++ [dot, cr, lf] := by simp
    rw [h2, List.take_left']
    simp

/-- C3 at the input 'a' CR LF '.' CR LF on the freshly constructed buffer. -/
theorem C3_single_append_terminator_witness :
    (construct false).is_sending_ = false ∧ (construct false).buffer_ = [] ∧
    ((Append (construct false) [97, 13, 10, 46, 13, 10]).transmission_ended_ = true ∧
     (Append (construct false) [97, 13, 10, 46, 13, 10]).buffer_
        = List.take (List.length [97, 13, 10, 46, 13, 10] - 3) [97, 13, 10, 46, 13, 10] ∧
     ([97, 13, 10, 46, 13, 10] = [dot, cr, lf] →
        (Append (construct false) [97, 13, 10, 46, 13, 10]).buffer_ = []) ∧
     (∀ body, [97, 13, 10, 46, 13, 10] = body ++ [cr, lf, dot, cr, lf] →
        (Append (construct false) [97, 13, 10, 46, 13, 10]).buffer_ = body ++ [cr, lf])) :=
  ⟨rfl, rfl, C3_single_append_terminator (construct false) [97, 13, 10, 46, 13, 10] rfl rfl
    (Or.inr ⟨[97], rfl⟩)⟩

/-! ## The search loop -/

/-- The loop fires at its first position when that byte is a line feed or the
flush is forced. -/
theorem findSplit_hit (buf : List Byte) (f : Bool) (e i : Nat) (he : e ≤ i)
    (h : byteAt buf i = lf ∨ f = true) : findSplit buf f e (i + 1) = some i := by
  simp [findSplit, Nat.not_lt.mpr he, h]

/-! ## C4: Append of a terminated body, then a forced Flush -/

/-- C4: on a fresh receiving buffer with an open file and no quota, when
length(body) + 2 does not exceed MAX_LINE_LENGTH, Append(body CR LF '.' CR LF)
followed by Flush(true) returns true, appends exactly
RemoveTransmissionPeriod_(body CR LF) to the file, leaves the buffer empty and
the file closed. -/
theorem C4_terminated_body_flush (M : Nat) (body existing : List Byte)
    (hlen : body.length + 2 ≤ M) :
    (Flush M (Append (InitializeFile (construct false) (some existing)).2
        (body ++ [cr, lf, dot, cr, lf])) true).dataProcessed = true ∧
    (Flush M (Append (InitializeFile (construct false) (some existing)).2
        (body ++ [cr, lf, dot, cr, lf])) true).state.file_.content
      = existing ++ RemoveTransmissionPeriod_ (body ++ [cr, lf]) ∧
    (Flush M (Append (InitializeFile (construct false) (some existing)).2
        (body ++ [cr, lf, dot, cr, lf])) true).state.buffer_ = [] ∧
    (Flush M (Append (InitializeFile (construct false) (some existing)).2
        (body ++ [cr, lf, dot, cr, lf])) true).state.file_.isOpen = false := by
  have hA := Append_trailing_terminator (InitializeFile (construct false) (some existing)).2
    (body ++ [cr, lf, dot, cr, lf]) body rfl (by simp) (by simp [InitializeFile, construct])
  rw [hA]
  have hfs : findSplit (body ++ [cr, lf]) true 0 (body.length + 1 + 1) = some (body.length + 1) :=
    findSplit_hit _ _ _ _ (Nat.zero_le _) (Or.inr rfl)
  have hM : ¬ (M < body.length + 2) := by omega
  have hsub : body.length + 2 - M = 0 := by omega
  have htake : List.take (body.length + 1 + 1) (body ++ [cr, lf]) = body ++ [cr, lf] :=
    List.take_of_length_le (by simp)
  simp [Flush, GetRequiresFlush, InitializeFile, construct, hM, hsub, hfs, flushAt, Empty,
    SaveToFile_, File.Write, File.Close, htake]



/-- C4 at body = 'a' with MAX_LINE_LENGTH = 1000 and an empty file. -/
theorem C4_terminated_body_flush_witness :
    List.length [97] + 2 ≤ 1000 ∧
    ((Flush 1000 (Append (InitializeFile (construct false) (some [])).2
        ([97] ++ [cr, lf, dot, cr, lf])) true).dataProcessed = true ∧
    (Flush 1000 (Append (InitializeFile (construct false) (some [])).2
        ([97] ++ [cr, lf, dot, cr, lf])) true).state.file_.content
      = [] ++ RemoveTransmissionPeriod_ ([97] ++ [cr, lf]) ∧
    (Flush 1000 (Append (InitializeFile (construct false) (some [])).2
        ([97] ++ [cr, lf, dot, cr, lf])) true).state.buffer_ = [] ∧
    (Flush 1000 (Append (InitializeFile (construct false) (some [])).2
        ([97] ++ [cr, lf, dot, cr, lf])) true).state.file_.isOpen = false) :=
  ⟨by decide, C4_terminated_body_flush 1000 [97] [] (by decide)⟩

/-! ## Flush in pieces -/

/-- The method `Flush` is the gate, the abuse check, the search loop with its
body, and the closing of the file. -/
theorem Flush_eq (M : Nat) (s : TransparentTransmissionBuffer) (f : Bool) :
    Flush M s f =
      if GetRequiresFlush s = false ∧ f = false then ⟨false, none, s⟩
      else closeWhenEnded
        (match findSplit (abuseCheck M s).buffer_ (f || decide (M < s.buffer_.length))
            ((abuseCheck M s).buffer_.length - M) (abuseCheck M s).buffer_.length with
         | some i => flushAt (abuseCheck M s) i
         | none => ⟨false, none, abuseCheck M s⟩) := rfl

@[simp] theorem abuseCheck_buffer (M : Nat) (s : TransparentTransmissionBuffer) :
    (abuseCheck M s).buffer_ = s.buffer_ := by
  unfold abuseCheck; split <;> rfl

@[simp] theorem abuseCheck_is_sending (M : Nat) (s : TransparentTransmissionBuffer) :
    (abuseCheck M s).is_sending_ = s.is_sending_ := by
  unfold abuseCheck; split <;> rfl

@[simp] theorem abuseCheck_ended (M : Nat) (s : TransparentTransmissionBuffer) :
    (abuseCheck M s).transmission_ended_ = s.transmission_ended_ := by
  unfold abuseCheck; split <;> rfl

@[simp] theorem abuseCheck_data_sent (M : Nat) (s : TransparentTransmissionBuffer) :
    (abuseCheck M s).data_sent_ = s.data_sent_ := by
  unfold abuseCheck; split <;> rfl

@[simp] theorem abuseCheck_max_size (M : Nat) (s : TransparentTransmissionBuffer) :
    (abuseCheck M s).max_size_kb_ = s.max_size_kb_ := by
  unfold abuseCheck; split <;> rfl

@[simp] theorem abuseCheck_file (M : Nat) (s : TransparentTransmissionBuffer) :
    (abuseCheck M s).file_ = s.file_ := by
  unfold abuseCheck; split <;> rfl

@[simp] theorem abuseCheck_tcp (M : Nat) (s : TransparentTransmissionBuffer) :
    (abuseCheck M s).tcp_connection_ = s.tcp_connection_ := by
  unfold abuseCheck; split <;> rfl

theorem abuseCheck_cancel (M : Nat) (s : TransparentTransmissionBuffer) :
    (abuseCheck M s).cancel_transmission_
      = (s.cancel_transmission_ || decide (M < s.buffer_.length)) := by
  unfold abuseCheck; split <;> simp_all

@[simp] theorem closeWhenEnded_dataProcessed (r : FlushResult) :
    (closeWhenEnded r).dataProcessed = r.dataProcessed := by
  unfold closeWhenEnded; split <;> rfl

@[simp] theorem closeWhenEnded_ready (r : FlushResult) :
    (closeWhenEnded r).ready = r.ready := by
  unfold closeWhenEnded; split <;> rfl

@[simp] theorem closeWhenEnded_buffer (r : FlushResult) :
    (closeWhenEnded r).state.buffer_ = r.state.buffer_ := by
  unfold closeWhenEnded; split <;> rfl

@[simp] theorem closeWhenEnded_cancel (r : FlushResult) :
    (closeWhenEnded r).state.cancel_transmission_ = r.state.cancel_transmission_ := by
  unfold closeWhenEnded; split <;> rfl

@[simp] theorem closeWhenEnded_ended (r : FlushResult) :
    (closeWhenEnded r).state.transmission_ended_ = r.state.transmission_ended_ := by
  unfold closeWhenEnded; split <;> rfl

@[simp] theorem closeWhenEnded_tcp (r : FlushResult) :
    (closeWhenEnded r).state.tcp_connection_ = r.state.tcp_connection_ := by
  unfold closeWhenEnded; split <;> rfl

@[simp] theorem closeWhenEnded_content (r : FlushResult) :
    (closeWhenEnded r).state.file_.content = r.state.file_.content := by
  unfold closeWhenEnded; split <;> rfl

theorem closeWhenEnded_isOpen (r : FlushResult) :
    (closeWhenEnded r).state.file_.isOpen
      = (r.state.file_.isOpen && !r.state.transmission_ended_) := by
  unfold closeWhenEnded
  split
  · rename_i h; simp [File.Close, h.1, h.2]
  · rename_i h
    cases h1 : r.state.file_.isOpen <;> cases h2 : r.state.transmission_ended_ <;> simp_all

@[simp] theorem flushAt_dataProcessed (s : TransparentTransmissionBuffer) (i : Nat) :
    (flushAt s i).dataProcessed = true := rfl

@[simp] theorem flushAt_ready (s : TransparentTransmissionBuffer) (i : Nat) :
    (flushAt s i).ready = some (s.buffer_.take (i + 1)) := rfl

theorem SaveToFile_fields (s : TransparentTransmissionBuffer) (p : List Byte) :
    (SaveToFile_ s p).2.buffer_ = s.buffer_ ∧
    (SaveToFile_ s p).2.transmission_ended_ = s.transmission_ended_ ∧
    (SaveToFile_ s p).2.cancel_transmission_ = s.cancel_transmission_ ∧
    (SaveToFile_ s p).2.tcp_connection_ = s.tcp_connection_ ∧
    (SaveToFile_ s p).2.file_.isOpen = s.file_.isOpen := by
  unfold SaveToFile_
  split
  · simp
  · split
    · simp [File.Write]; split <;> rfl
    · simp

@[simp] theorem flushAt_buffer (s : TransparentTransmissionBuffer) (i : Nat) :
    (flushAt s i).state.buffer_ = s.buffer_.drop (i + 1) := by
  have hdrop : Empty s.buffer_ (s.buffer_.length - (i + 1)) = s.buffer_.drop (i + 1) := by
    unfold Empty
    by_cases h : i + 1 ≤ s.buffer_.length
    · congr 1; omega
    · have h1 : s.buffer_.length - (s.buffer_.length - (i + 1)) = s.buffer_.length := by omega
      rw [h1, List.drop_length, List.drop_of_length_le (by omega)]
  unfold flushAt
  simp only [hdrop]
  split
  · split <;> rfl
  · exact (SaveToFile_fields _ _).1

@[simp] theorem flushAt_cancel (s : TransparentTransmissionBuffer) (i : Nat) :
    (flushAt s i).state.cancel_transmission_ = s.cancel_transmission_ := by
  unfold flushAt
  simp only
  split
  · split <;> rfl
  · exact (SaveToFile_fields _ _).2.2.1

@[simp] theorem flushAt_ended (s : TransparentTransmissionBuffer) (i : Nat) :
    (flushAt s i).state.transmission_ended_ = s.transmission_ended_ := by
  unfold flushAt
  simp only
  split
  · split <;> rfl
  · exact (SaveToFile_fields _ _).2.1

@[simp] theorem flushAt_isOpen (s : TransparentTransmissionBuffer) (i : Nat) :
    (flushAt s i).state.file_.isOpen = s.file_.isOpen := by
  unfold flushAt
  simp only
  split
  · split <;> rfl
  · exact (SaveToFile_fields _ _).2.2.2.2

/-- In the sending direction the loop body enqueues the stuffed segment on a live
connection. -/
theorem flushAt_tcp_sending (s : TransparentTransmissionBuffer) (i : Nat)
    (hs : s.is_sending_ = true) (q : List (List Byte)) (hq : s.tcp_connection_ = some q) :
    (flushAt s i).state.tcp_connection_
      = some (q ++ [InsertTransmissionPeriod_ (s.buffer_.take (i + 1))]) := by
  unfold flushAt
  simp [hs, hq]

/-- The gate of `Flush`: nothing happens when no flush is required and none is
forced. -/
theorem Flush_gate (M : Nat) (s : TransparentTransmissionBuffer)
    (h : GetRequiresFlush s = false) : Flush M s false = ⟨false, none, s⟩ := by
  rw [Flush_eq]; simp [h]

/-- Past the gate, with a non-empty buffer and a positive ceiling, the loop fires
at the last byte when that byte is a line feed, when the flush is forced, or
when the buffer is longer than the ceiling. -/
theorem Flush_last (M : Nat) (s : TransparentTransmissionBuffer) (f : Bool)
    (hM : 1 ≤ M) (hgo : GetRequiresFlush s = true ∨ f = true) (hne : s.buffer_ ≠ [])
    (hhit : byteAt s.buffer_ (s.buffer_.length - 1) = lf ∨ f = true ∨ M < s.buffer_.length) :
    Flush M s f = closeWhenEnded (flushAt (abuseCheck M s) (s.buffer_.length - 1)) := by
  have hpos : 0 < s.buffer_.length := List.length_pos.mpr hne
  have hgate : ¬ (GetRequiresFlush s = false ∧ f = false) := by
    rintro ⟨h1, h2⟩
    rcases hgo with h | h
    · rw [h1] at h; exact Bool.noConfusion h
    · rw [h2] at h; exact Bool.noConfusion h
  have hfs : findSplit s.buffer_ (f || decide (M < s.buffer_.length))
      (s.buffer_.length - M) (s.buffer_.length - 1 + 1) = some (s.buffer_.length - 1) := by
    apply findSplit_hit
    · omega
    · rcases hhit with h | h | h
      · exact Or.inl h
      · right; simp [h]
      · right; simp [h]
  have hlen : s.buffer_.length - 1 + 1 = s.buffer_.length := by omega
  rw [hlen] at hfs
  rw [Flush_eq, if_neg hgate]
  simp only [abuseCheck_buffer, hfs]

/-- Past the gate, nothing is carved from an empty buffer. -/
theorem Flush_empty (M : Nat) (s : TransparentTransmissionBuffer) (f : Bool)
    (hgo : GetRequiresFlush s = true ∨ f = true) (he : s.buffer_ = []) :
    Flush M s f = closeWhenEnded ⟨false, none, s⟩ := by
  have hgate : ¬ (GetRequiresFlush s = false ∧ f = false) := by
    rintro ⟨h1, h2⟩
    rcases hgo with h | h
    · rw [h1] at h; exact Bool.noConfusion h
    · rw [h2] at h; exact Bool.noConfusion h
  rw [Flush_eq, if_neg hgate]
  simp [abuseCheck, he, findSplit]

/-! ## The running count -/

theorem wrapInt32_wrap_add (a b : Int) : wrapInt32 (wrapInt32 a + b) = wrapInt32 (a + b) := by
  unfold wrapInt32; omega

theorem wrapInt32_of_range (x : Int) (h0 : -2147483648 ≤ x) (h1 : x ≤ 2147483647) :
    wrapInt32 x = x := by
  unfold wrapInt32; omega

@[simp] theorem countAfter_zero (x : Int) : countAfter x 0 = x := by
  simp [countAfter]

theorem countAfter_add (x : Int) (a b : Nat) :
    countAfter (countAfter x a) b = countAfter x (a + b) := by
  unfold countAfter
  by_cases ha : a = 0
  · subst ha; simp
  · by_cases hb : b = 0
    · subst hb; simp [ha]
    · have hab : a + b ≠ 0 := by omega
      simp only [ha, hb, hab, if_false]
      rw [wrapInt32_wrap_add]
      congr 1
      push_cast
      omega

theorem countAfter_small (x : Int) (n : Nat) (h0 : 0 ≤ x) (h : x + n ≤ 2147483647) :
    countAfter x n = x + n := by
  unfold countAfter
  by_cases hn : n = 0
  · subst hn; simp
  · simp only [hn, if_false]
    exact wrapInt32_of_range _ (by omega) h

/-! ## Chunked runs -/

/-- In the sending direction `Append` only accounts for the input and adds it to
the buffer. -/
theorem Append_sending (s : TransparentTransmissionBuffer) (c : List Byte)
    (hs : s.is_sending_ = true) :
    Append s c = { s with data_sent_ := countAfter s.data_sent_ c.length,
                          buffer_ := s.buffer_ ++ c } := by
  unfold Append countAfter
  by_cases hc : c.length = 0
  · have : c = [] := List.length_eq_zero.mp hc
    subst this
    simp
  · simp [hc, hs]

/-- While the total stays within the flush threshold, feeding chunks to a
sending buffer only accumulates them. -/
theorem feedChunks_small (M : Nat) (chunks : List (List Byte)) :
    ∀ s : TransparentTransmissionBuffer, s.is_sending_ = true → s.transmission_ended_ = false →
      (s.buffer_ ++ chunks.flatten).length ≤ 40000 →
      feedChunks M s chunks
        = { s with data_sent_ := countAfter s.data_sent_ chunks.flatten.length,
                   buffer_ := s.buffer_ ++ chunks.flatten } := by
  induction chunks with
  | nil => intro s _ _ _; simp [feedChunks]
  | cons c cs ih =>
    intro s hs he hlen
    simp only [List.flatten_cons, List.length_append] at hlen
    have hreq : GetRequiresFlush (Append s c) = false := by
      rw [Append_sending s c hs]
      have : ¬ (40000 < s.buffer_.length + c.length) := by omega
      simp [GetRequiresFlush, he, this]
    simp only [feedChunks, Flush_gate M _ hreq]
    rw [ih (Append s c)]
    · rw [Append_sending s c hs]
      simp [countAfter_add]
    · rw [Append_sending s c hs]; exact hs
    · rw [Append_sending s c hs]; exact he
    · rw [Append_sending s c hs]
      simp only [List.length_append]
      omega

theorem stuffFrom_replicate_dot (n : Nat) :
    ∀ (i : Nat) (p : Byte), (n = 0 → i ≠ 0 ∧ p ≠ lf) →
      stuffFrom i p (List.replicate n 97 ++ [dot]) = List.replicate n 97 ++ [dot] := by
  induction n with
  | zero =>
    intro i p h
    have h1 := (h rfl).1
    have h2 := (h rfl).2
    simp [stuffFrom, h1, h2]
  | succ n ih =>
    intro i p _
    have h97 : (97 : Byte) ≠ dot := by decide
    have h97lf : (97 : Byte) ≠ lf := by decide
    have := ih (i + 1) 97 (fun _ => ⟨by omega, h97lf⟩)
    simp [List.replicate_succ, stuffFrom, h97, this]

theorem stuffFrom_replicate (n : Nat) :
    ∀ (i : Nat) (p : Byte), stuffFrom i p (List.replicate n 97) = List.replicate n 97 := by
  induction n with
  | zero => intro i p; simp [stuffFrom]
  | succ n ih =>
    intro i p
    have h97 : (97 : Byte) ≠ dot := by decide
    simp [List.replicate_succ, stuffFrom, h97, ih]

/-- Past the gate, in the sending direction with a live connection and no open
file, a flush whose loop fires at the last byte enqueues the stuffed buffer and
leaves the buffer empty. -/
theorem Flush_last_sending (M : Nat) (s : TransparentTransmissionBuffer) (f : Bool)
    (q : List (List Byte))
    (hM : 1 ≤ M) (hgo : GetRequiresFlush s = true ∨ f = true) (hne : s.buffer_ ≠ [])
    (hhit : byteAt s.buffer_ (s.buffer_.length - 1) = lf ∨ f = true ∨ M < s.buffer_.length)
    (hs : s.is_sending_ = true) (hq : s.tcp_connection_ = some q)
    (hfile : s.file_.isOpen = false) :
    (Flush M s f).state =
      { abuseCheck M s with
          buffer_ := [],
          last_send_ended_with_newline_ := decide (byteAt s.buffer_ (s.buffer_.length - 1) = lf),
          tcp_connection_ := some (q ++ [InsertTransmissionPeriod_ s.buffer_]) } := by
  have hpos : 0 < s.buffer_.length := List.length_pos.mpr hne
  have hlen : s.buffer_.length - 1 + 1 = s.buffer_.length := by omega
  rw [Flush_last M s f hM hgo hne hhit]
  have hopen : (flushAt (abuseCheck M s) (s.buffer_.length - 1)).state.file_.isOpen = false := by
    simp [hfile]
  have hclose : closeWhenEnded (flushAt (abuseCheck M s) (s.buffer_.length - 1))
      = flushAt (abuseCheck M s) (s.buffer_.length - 1) := by
    unfold closeWhenEnded
    rw [if_neg]
    rintro ⟨_, h⟩
    rw [hopen] at h
    exact Bool.noConfusion h
  rw [hclose]
  unfold flushAt
  simp [hs, hq, hlen, Empty]

/-- An input of `n` bytes `'a'` followed, in a second chunk, by one dot: when `n`
exceeds both the flush threshold and the ceiling, the chunked run carves the
dot as a segment of its own and doubles it, the single-call run does not. -/
theorem chunked_long_line (M n : Nat) (hM : 1 ≤ M) (hn : M < n) (h4 : 40000 < n) :
    delivered (runChunked M freshSender [List.replicate n 97, [dot]])
        = List.replicate n 97 ++ [dot, dot] ∧
    delivered (runWhole M freshSender [List.replicate n 97, [dot]].flatten)
        = List.replicate n 97 ++ [dot] := by
  have hs : freshSender.is_sending_ = true := rfl
  have hne : (List.replicate n 97) ≠ [] := by
    intro h; have := congrArg List.length h; simp at this; omega
  have hI1 : InsertTransmissionPeriod_ (List.replicate n 97) = List.replicate n 97 := by
    rw [InsertTransmissionPeriod_eq, stuffFrom_replicate]
  have hI2 : InsertTransmissionPeriod_ (List.replicate n 97 ++ [dot])
      = List.replicate n 97 ++ [dot] := by
    rw [InsertTransmissionPeriod_eq, stuffFrom_replicate_dot]
    intro h0; omega
  have hI3 : InsertTransmissionPeriod_ [dot] = [dot, dot] := by decide
  constructor
  · have hA1 : Append freshSender (List.replicate n 97)
        = { freshSender with data_sent_ := countAfter freshSender.data_sent_ n,
                             buffer_ := List.replicate n 97 } := by
      rw [Append_sending _ _ hs]; simp [freshSender, InitializeConnection, construct]
    have hF1 := Flush_last_sending M (Append freshSender (List.replicate n 97)) false []
      hM (Or.inl (by rw [hA1]; simp [GetRequiresFlush, h4])) (by rw [hA1]; exact hne)
      (Or.inr (Or.inr (by rw [hA1]; simpa using hn))) (by rw [hA1]; rfl) (by rw [hA1]; rfl)
      (by rw [hA1]; rfl)
    rw [hA1] at hF1
    simp only [List.nil_append, hI1] at hF1
    simp only [runChunked, feedChunks, hA1, hF1]
    rw [Append_sending _ _ (by simp [hs])]
    rw [Flush_gate M _ (by simp [GetRequiresFlush, freshSender, InitializeConnection, construct])]
    rw [Flush_last_sending M _ true [List.replicate n 97] hM (Or.inr rfl) (by simp)
      (Or.inr (Or.inl rfl)) (by simp [hs]) (by simp) (by simp [freshSender, InitializeConnection, construct])]
    simp [delivered, hI3]
  · have hA : Append freshSender [List.replicate n 97, [dot]].flatten
        = { freshSender with data_sent_ := countAfter freshSender.data_sent_ (n + 1),
                             buffer_ := List.replicate n 97 ++ [dot] } := by
      rw [Append_sending _ _ hs]; simp [freshSender, InitializeConnection, construct]
    have hF1 := Flush_last_sending M (Append freshSender [List.replicate n 97, [dot]].flatten)
      false [] hM (Or.inl (by rw [hA]; simp [GetRequiresFlush]; omega)) (by rw [hA]; simp)
      (Or.inr (Or.inr (by rw [hA]; simp; omega))) (by rw [hA]; rfl) (by rw [hA]; rfl)
      (by rw [hA]; rfl)
    rw [hA] at hF1
    simp only [List.nil_append, hI2] at hF1
    simp only [runWhole, hA, hF1]
    rw [Flush_empty M _ true (Or.inr rfl) (by simp)]
    simp [delivered]

/-- The forced drain of an over-long line also makes the output depend on the
chunking: with the input of 100001 bytes `'a'` followed by one dot, split into
the chunks `a…a` and `.`, the chunked run delivers `a…a..` and the
single-call run delivers `a…a.`, both for MAX_LINE_LENGTH = 1000 and for
MAX_LINE_LENGTH = 100000. -/
theorem forced_drain_changes_output :
    ¬ chunkIndependent 1000 [List.replicate 100001 97, [dot]] ∧
    ¬ chunkIndependent 100000 [List.replicate 100001 97, [dot]] := by
  constructor
  · intro h
    unfold chunkIndependent at h
    rw [(chunked_long_line 1000 100001 (by norm_num) (by norm_num) (by norm_num)).1,
      (chunked_long_line 1000 100001 (by norm_num) (by norm_num) (by norm_num)).2] at h
    exact absurd (List.append_cancel_left h) (by decide)
  · intro h
    unfold chunkIndependent at h
    rw [(chunked_long_line 100000 100001 (by norm_num) (by norm_num) (by norm_num)).1,
      (chunked_long_line 100000 100001 (by norm_num) (by norm_num) (by norm_num)).2] at h
    exact absurd (List.append_cancel_left h) (by decide)

/-- Below the flush threshold the chunking cannot matter: for a sending buffer
with a live connection and an input of at most 40000 bytes in total, every
way of splitting the input into chunks (each appended and followed by
Flush(false), then one Flush(true)) ends in the same object as a single Append
of the whole input followed by Flush(false) and Flush(true). -/
theorem chunking_within_threshold (M : Nat) (chunks : List (List Byte))
    (h : chunks.flatten.length ≤ 40000) :
    runChunked M freshSender chunks = runWhole M freshSender chunks.flatten ∧
    chunkIndependent M chunks := by
  have hs : freshSender.is_sending_ = true := rfl
  have key : runChunked M freshSender chunks = runWhole M freshSender chunks.flatten := by
    have h1 := feedChunks_small M chunks freshSender rfl rfl
      (by simpa [freshSender, InitializeConnection, construct] using h)
    have hreq : GetRequiresFlush (Append freshSender chunks.flatten) = false := by
      rw [Append_sending _ _ hs]
      have hb : freshSender.buffer_ = [] := rfl
      have he : freshSender.transmission_ended_ = false := rfl
      unfold GetRequiresFlush
      simp only [hb, he, List.nil_append]
      rw [if_neg]
      rintro (h' | h')
      · omega
      · exact Bool.noConfusion h'
    unfold runChunked runWhole
    rw [h1, Flush_gate M _ hreq, Append_sending _ _ hs]
  exact ⟨key, by unfold chunkIndependent; rw [key]⟩

/-! ## C6: closing the file -/

/-- C6, as stated, fails: from a fresh receiving buffer with an open file,
Append('a' CR LF '.' CR LF) then Append('b') reach a state on which
Flush(false), with MAX_LINE_LENGTH = 1000, closes the file while the byte 'b'
is still in the buffer. -/
theorem C6_file_closed_with_bytes_pending :
    (Append (Append (InitializeFile (construct false) (some [])).2
        [97, 13, 10, 46, 13, 10]) [98]).file_.isOpen = true ∧
    (Flush 1000 (Append (Append (InitializeFile (construct false) (some [])).2
        [97, 13, 10, 46, 13, 10]) [98]) false).state.file_.isOpen = false ∧
    (Flush 1000 (Append (Append (InitializeFile (construct false) (some [])).2
        [97, 13, 10, 46, 13, 10]) [98]) false).state.buffer_ = [98] := by
  decide

/-- C6, amended: for a positive MAX_LINE_LENGTH and a buffer that holds only
complete lines when Flush is called (it is empty or its last byte is a line
feed, as right after the terminator CR LF '.' CR LF has been trimmed), if
Flush(force) closes the file then the buffer is empty when Flush returns. -/
theorem C6_close_after_complete_lines (M : Nat) (s : TransparentTransmissionBuffer) (f : Bool)
    (hM : 1 ≤ M)
    (hlines : s.buffer_ = [] ∨ byteAt s.buffer_ (s.buffer_.length - 1) = lf)
    (hopen : s.file_.isOpen = true)
    (hclosed : (Flush M s f).state.file_.isOpen = false) :
    (Flush M s f).state.buffer_ = [] := by
  have hgo : GetRequiresFlush s = true ∨ f = true := by
    by_contra hno
    have h1 : GetRequiresFlush s = false := by
      cases h : GetRequiresFlush s
      · rfl
      · exact absurd (Or.inl h) hno
    have h2 : f = false := by
      cases h : f
      · rfl
      · exact absurd (Or.inr h) hno
    subst h2
    rw [Flush_gate M s h1] at hclosed
    rw [hopen] at hclosed
    exact Bool.noConfusion hclosed
  by_cases he : s.buffer_ = []
  · rw [Flush_empty M s f hgo he]
    simpa using he
  · have hlf : byteAt s.buffer_ (s.buffer_.length - 1) = lf := by
      rcases hlines with h | h
      · exact absurd h he
      · exact h
    have hpos : 0 < s.buffer_.length := List.length_pos.mpr he
    rw [Flush_last M s f hM hgo he (Or.inl hlf)]
    simp only [closeWhenEnded_buffer, flushAt_buffer, abuseCheck_buffer]
    apply List.drop_of_length_le
    omega

/-- C6, amended, at the state after Append('a' CR LF '.' CR LF) on a fresh
receiving buffer with an open file, MAX_LINE_LENGTH = 1000, Flush(false). -/
theorem C6_close_after_complete_lines_witness :
    1 ≤ 1000 ∧
    ((Append (InitializeFile (construct false) (some [])).2 [97, 13, 10, 46, 13, 10]).buffer_ = [] ∨
      byteAt (Append (InitializeFile (construct false) (some [])).2 [97, 13, 10, 46, 13, 10]).buffer_
        ((Append (InitializeFile (construct false) (some [])).2
          [97, 13, 10, 46, 13, 10]).buffer_.length - 1) = lf) ∧
    (Append (InitializeFile (construct false) (some [])).2 [97, 13, 10, 46, 13, 10]).file_.isOpen
      = true ∧
    (Flush 1000 (Append (InitializeFile (construct false) (some [])).2 [97, 13, 10, 46, 13, 10])
      false).state.file_.isOpen = false ∧
    (Flush 1000 (Append (InitializeFile (construct false) (some [])).2 [97, 13, 10, 46, 13, 10])
      false).state.buffer_ = [] :=
  ⟨by decide, by decide, by decide, by decide,
   C6_close_after_complete_lines 1000
     (Append (InitializeFile (construct false) (some [])).2 [97, 13, 10, 46, 13, 10]) false
     (by decide) (by decide) (by decide) (by decide)⟩

/-! ## Buffers without dots -/

theorem byteAt_ne_dot (buf : List Byte) (h : ∀ c ∈ buf, c ≠ dot) (k : Nat) :
    byteAt buf k ≠ dot := by
  unfold byteAt
  rw [List.getD_eq_getElem?_getD]
  by_cases hk : k < buf.length
  · rw [List.getElem?_eq_getElem hk]
    exact h _ (List.getElem_mem hk)
  · rw [List.getElem?_eq_none (by omega)]
    decide

/-- In the receiving direction, input that leaves no dot in the buffer is only
accounted for and added to the buffer. -/
theorem Append_no_dot (s : TransparentTransmissionBuffer) (d : List Byte)
    (h : ∀ c ∈ s.buffer_ ++ d, c ≠ dot) :
    Append s d = { s with data_sent_ := countAfter s.data_sent_ d.length,
                          buffer_ := s.buffer_ ++ d } := by
  unfold Append countAfter
  by_cases hc : d.length = 0
  · have : d = [] := List.length_eq_zero.mp hc
    subst this
    simp
  · have h0 := byteAt_ne_dot _ h 0
    have h3 := byteAt_ne_dot _ h (s.buffer_.length + d.length - 3)
    simp [hc, h0, h3]

theorem unstuffFrom_no_dot (l : List Byte) (h : ∀ c ∈ l, c ≠ dot) :
    ∀ (i : Nat) (p : Byte), unstuffFrom i p l = l := by
  induction l with
  | nil => intro i p; rfl
  | cons c t ih =>
    intro i p
    have hc : c ≠ dot := h c (List.mem_cons_self _ _)
    have ht : ∀ x ∈ t, x ≠ dot := fun x hx => h x (List.mem_cons_of_mem _ hx)
    simp [unstuffFrom, hc, ih ht]

theorem RemoveTransmissionPeriod_no_dot (l : List Byte) (h : ∀ c ∈ l, c ≠ dot) :
    RemoveTransmissionPeriod_ l = l := by
  rw [RemoveTransmissionPeriod_eq, unstuffFrom_no_dot l h]

theorem replicate_no_dot (n : Nat) : ∀ c ∈ List.replicate n 97, c ≠ dot := by
  intro c hc
  rw [List.eq_of_mem_replicate hc]
  decide

theorem lineOf_no_dot (n : Nat) : ∀ c ∈ lineOf n, c ≠ dot := by
  intro c hc
  unfold lineOf at hc
  rcases List.mem_append.mp hc with h | h
  · exact replicate_no_dot n c h
  · rw [List.mem_singleton.mp h]; decide

theorem lineOf_length (n : Nat) : (lineOf n).length = n + 1 := by
  simp [lineOf]

theorem lineOf_last (n : Nat) : byteAt (lineOf n) ((lineOf n).length - 1) = lf := by
  have h := byteAt_append_add (List.replicate n 97) [lf] 0
  simp only [List.length_replicate, Nat.add_zero] at h
  rw [lineOf_length]
  simp only [lineOf, Nat.add_sub_cancel]
  rw [h]
  rfl

theorem lineOf_ne_nil (n : Nat) : lineOf n ≠ [] := by
  simp [lineOf]
/-! ## C7: stuffing and the terminator -/

/-- C7 at the segment CR LF '.' CR LF: the dot at offset 2 follows a line feed
but is not doubled (the test is `i > 2`), so the stuffed output is the segment
itself and contains the terminator CR LF '.' CR LF. -/
theorem C7_stuffed_output_contains_terminator :
    InsertTransmissionPeriod_ [13, 10, 46, 13, 10] = [13, 10, 46, 13, 10] ∧
    containsTerminator (InsertTransmissionPeriod_ [13, 10, 46, 13, 10]) :=
  ⟨by decide, ⟨0, by decide, by decide⟩⟩

/-! ## C8: abuse cancellation -/

/-- A receiving buffer that has been given `n` bytes `'a'`, with `n` within the
flush threshold: an unforced flush stops at the gate whatever the ceiling. -/
theorem unforced_long_line (M n : Nat) (hn : n ≤ 40000) :
    (Append (construct false) (List.replicate n 97)).buffer_ = List.replicate n 97 ∧
    Flush M (Append (construct false) (List.replicate n 97)) false
      = ⟨false, none, Append (construct false) (List.replicate n 97)⟩ ∧
    (Append (construct false) (List.replicate n 97)).cancel_transmission_ = false := by
  have hA := Append_no_dot (construct false) (List.replicate n 97)
    (by simpa [construct] using replicate_no_dot n)
  have hreq : GetRequiresFlush (Append (construct false) (List.replicate n 97)) = false := by
    rw [hA]
    have : ¬ (40000 < n) := by omega
    simp [GetRequiresFlush, construct, this]
  refine ⟨?_, Flush_gate M _ hreq, ?_⟩
  · rw [hA]; simp [construct]
  · rw [hA]; rfl

/-- C8, as stated, fails in two ways.  With MAX_LINE_LENGTH = 1000, a receiving
buffer that holds 1001 bytes `'a'` (no line feed, not ended) is left untouched
by Flush(false): it returns false and cancelled stays false.  With
MAX_LINE_LENGTH = 0, Flush(true) on the one-byte buffer `'a'` sets cancelled
but carves nothing and returns false. -/
theorem C8_abuse_not_always_drained :
    (1000 < (Append (construct false) (List.replicate 1001 97)).buffer_.length ∧
     (∀ c ∈ (Append (construct false) (List.replicate 1001 97)).buffer_, c ≠ lf) ∧
     (Flush 1000 (Append (construct false) (List.replicate 1001 97)) false).dataProcessed = false ∧
     (Flush 1000 (Append (construct false) (List.replicate 1001 97)) false).state.cancel_transmission_
        = false ∧
     (Flush 1000 (Append (construct false) (List.replicate 1001 97)) false).state.buffer_
        = (Append (construct false) (List.replicate 1001 97)).buffer_) ∧
    (0 < (Append (construct false) [97]).buffer_.length ∧
     (∀ c ∈ (Append (construct false) [97]).buffer_, c ≠ lf) ∧
     (Flush 0 (Append (construct false) [97]) true).dataProcessed = false ∧
     (Flush 0 (Append (construct false) [97]) true).ready = none ∧
     (Flush 0 (Append (construct false) [97]) true).state.buffer_ = [97]) := by
  obtain ⟨hb, hF, hc⟩ := unforced_long_line 1000 1001 (by norm_num)
  refine ⟨⟨?_, ?_, ?_, ?_, ?_⟩, by decide⟩
  · rw [hb, List.length_replicate]; norm_num
  · intro c hmem
    rw [hb] at hmem
    rw [List.eq_of_mem_replicate hmem]
    decide
  · rw [hF]
  · rw [hF]; exact hc
  · rw [hF]

/-- C8, amended: in either direction, for every positive MAX_LINE_LENGTH, if the
buffer holds more than MAX_LINE_LENGTH bytes, none of them a line feed, then a
call of Flush that is forced or finds RequiresFlush() true (as it always does
when MAX_LINE_LENGTH is at least 40000) sets cancelled, returns true, carves
the entire buffer as one non-empty ready segment and leaves the buffer
empty. -/
theorem C8_abuse_cancellation (M : Nat) (s : TransparentTransmissionBuffer) (f : Bool)
    (hM : 1 ≤ M) (hlong : M < s.buffer_.length) (_hnolf : ∀ c ∈ s.buffer_, c ≠ lf)
    (hgo : f = true ∨ GetRequiresFlush s = true ∨ 40000 ≤ M) :
    (Flush M s f).state.cancel_transmission_ = true ∧
    (Flush M s f).dataProcessed = true ∧
    (Flush M s f).ready = some s.buffer_ ∧
    s.buffer_ ≠ [] ∧
    (Flush M s f).state.buffer_ = [] := by
  have hne : s.buffer_ ≠ [] := by
    intro h; rw [h] at hlong; simp at hlong
  have hpos : 0 < s.buffer_.length := List.length_pos.mpr hne
  have hlen : s.buffer_.length - 1 + 1 = s.buffer_.length := by omega
  have hgo2 : GetRequiresFlush s = true ∨ f = true := by
    rcases hgo with h | h | h
    · exact Or.inr h
    · exact Or.inl h
    · left
      have : 40000 < s.buffer_.length := by omega
      simp [GetRequiresFlush, this]
  rw [Flush_last M s f hM hgo2 hne (Or.inr (Or.inr hlong))]
  refine ⟨?_, ?_, ?_, hne, ?_⟩
  · simp [abuseCheck_cancel, hlong]
  · simp
  · simp [hlen]
  · simp [hlen]

/-- C8, amended, at MAX_LINE_LENGTH = 3 and a receiving buffer holding the four
bytes `'a' 'a' 'a' 'a'`, Flush(true). -/
theorem C8_abuse_cancellation_witness :
    1 ≤ 3 ∧ 3 < (Append (construct false) [97, 97, 97, 97]).buffer_.length ∧
    (∀ c ∈ (Append (construct false) [97, 97, 97, 97]).buffer_, c ≠ lf) ∧
    (true = true ∨ GetRequiresFlush (Append (construct false) [97, 97, 97, 97]) = true ∨
      40000 ≤ 3) ∧
    ((Flush 3 (Append (construct false) [97, 97, 97, 97]) true).state.cancel_transmission_ = true ∧
     (Flush 3 (Append (construct false) [97, 97, 97, 97]) true).dataProcessed = true ∧
     (Flush 3 (Append (construct false) [97, 97, 97, 97]) true).ready
        = some (Append (construct false) [97, 97, 97, 97]).buffer_ ∧
     (Append (construct false) [97, 97, 97, 97]).buffer_ ≠ [] ∧
     (Flush 3 (Append (construct false) [97, 97, 97, 97]) true).state.buffer_ = []) :=
  ⟨by decide, by decide, by decide, Or.inl rfl,
   C8_abuse_cancellation 3 (Append (construct false) [97, 97, 97, 97]) true
     (by decide) (by decide) (by decide) (Or.inl rfl)⟩

/-! ## C9: what raises cancellation -/

theorem shortLines_no_dot (n : Nat) : ∀ c ∈ (List.replicate n [97, lf]).flatten, c ≠ dot := by
  intro c hc
  obtain ⟨l, hl, hcl⟩ := List.mem_flatten.mp hc
  rw [List.eq_of_mem_replicate hl] at hcl
  rcases List.mem_cons.mp hcl with h | h
  · rw [h]; decide
  · rw [List.mem_singleton.mp h]; decide

theorem shortLines_length (n : Nat) : ((List.replicate n [97, lf]).flatten : List Byte).length = 2 * n := by
  induction n with
  | zero => rfl
  | succ n ih => simp only [List.replicate_succ, List.flatten_cons, List.length_append, ih]; simp; omega

theorem shortLines_succ (n : Nat) :
    ((List.replicate (n + 1) [97, lf]).flatten : List Byte)
      = 97 :: lf :: (List.replicate n [97, lf]).flatten := by
  simp [List.replicate_succ]

theorem longestRunAux_line (t : List Byte) (cur best : Nat) :
    longestRunAux (97 :: lf :: t) cur best = longestRunAux t 0 (max (cur + 1) best) := by
  have h1 : (97 : Byte) ≠ lf := by decide
  simp [longestRunAux, h1]

theorem longestRunAux_shortLines (n : Nat) :
    ∀ best, 1 ≤ best → longestRunAux (List.replicate n [97, lf]).flatten 0 best = best := by
  induction n with
  | zero => intro best hb; simp [longestRunAux]
  | succ n ih =>
    intro best hb
    rw [shortLines_succ, longestRunAux_line, ih _ (le_max_of_le_right hb)]
    exact max_eq_right hb

/-- A receiving buffer that has been given `n` lines `'a'` LF, more than the
ceiling in total: the longest line is one byte and a forced flush cancels. -/
theorem shortLines_cancelled (M n : Nat) (hM : 1 ≤ M) (hn : M < 2 * n) :
    (Append (construct false) (List.replicate n [97, lf]).flatten).cancel_transmission_ = false ∧
    longestLine (Append (construct false) (List.replicate n [97, lf]).flatten).buffer_ = 1 ∧
    (Flush M (Append (construct false) (List.replicate n [97, lf]).flatten)
      true).state.cancel_transmission_ = true := by
  have hA := Append_no_dot (construct false) (List.replicate n [97, lf]).flatten
    (by simpa [construct] using shortLines_no_dot n)
  have hb : (Append (construct false) (List.replicate n [97, lf]).flatten).buffer_
      = (List.replicate n [97, lf]).flatten := by
    rw [hA]; simp [construct]
  have hlong : M < (Append (construct false) (List.replicate n [97, lf]).flatten).buffer_.length := by
    rw [hb, shortLines_length]; exact hn
  have hne : (Append (construct false) (List.replicate n [97, lf]).flatten).buffer_ ≠ [] := by
    intro h; rw [h] at hlong; simp at hlong
  refine ⟨by rw [hA]; rfl, ?_, ?_⟩
  · rw [hb]
    obtain ⟨m, rfl⟩ : ∃ m, n = m + 1 := ⟨n - 1, by omega⟩
    unfold longestLine
    rw [shortLines_succ, longestRunAux_line, longestRunAux_shortLines m _ (le_max_left _ _)]
    rfl
  · rw [Flush_last M _ true hM (Or.inr rfl) hne (Or.inr (Or.inl rfl))]
    simp [abuseCheck_cancel, hlong]

/-- C9 at a receiving buffer made of short lines `'a'` LF, for
MAX_LINE_LENGTH = 1000 with 501 lines (1002 bytes) and for
MAX_LINE_LENGTH = 100000 with 50001 lines (100002 bytes): not cancelled
before, the longest line is one byte, and Flush(true) sets cancelled, because
the abuse check compares the size of the whole buffer with the ceiling. -/
theorem C9_short_lines_cancelled :
    ((Append (construct false) (List.replicate 501 [97, lf]).flatten).cancel_transmission_ = false ∧
     longestLine (Append (construct false) (List.replicate 501 [97, lf]).flatten).buffer_ = 1 ∧
     (Flush 1000 (Append (construct false) (List.replicate 501 [97, lf]).flatten)
        true).state.cancel_transmission_ = true) ∧
    ((Append (construct false) (List.replicate 50001 [97, lf]).flatten).cancel_transmission_
        = false ∧
     longestLine (Append (construct false) (List.replicate 50001 [97, lf]).flatten).buffer_ = 1 ∧
     (Flush 100000 (Append (construct false) (List.replicate 50001 [97, lf]).flatten)
        true).state.cancel_transmission_ = true) :=
  ⟨shortLines_cancelled 1000 501 (by norm_num) (by norm_num),
   shortLines_cancelled 100000 50001 (by norm_num) (by norm_num)⟩

/-! ## C10: the file quota -/

theorem tdiv_1024_le_one (x : Int) (h0 : 0 ≤ x) (h1 : x < 2048) : ¬ (1 < Int.tdiv x 1024) := by
  rw [Int.tdiv_eq_ediv h0 (by norm_num)]
  omega

theorem one_lt_tdiv_1024 (x : Int) (h : 2048 ≤ x) : 1 < Int.tdiv x 1024 := by
  rw [Int.tdiv_eq_ediv (by omega) (by norm_num)]
  omega

/-- Past the gate, in the receiving direction with an open file, within the
ceiling, not ended, not cancelled and with the quota test not firing, a flush
whose loop fires at the last byte writes the un-stuffed buffer to the file and
leaves the buffer empty. -/
theorem Flush_last_receiving (M : Nat) (s : TransparentTransmissionBuffer) (f : Bool)
    (hM : 1 ≤ M) (hgo : GetRequiresFlush s = true ∨ f = true) (hne : s.buffer_ ≠ [])
    (hhit : byteAt s.buffer_ (s.buffer_.length - 1) = lf ∨ f = true ∨ M < s.buffer_.length)
    (hr : s.is_sending_ = false)
    (hq : ¬ (0 < s.max_size_kb_ ∧ s.max_size_kb_ < Int.tdiv s.data_sent_ 1024))
    (hc : s.cancel_transmission_ = false) (hfit : s.buffer_.length ≤ M)
    (hopen : s.file_.isOpen = true) (hend : s.transmission_ended_ = false) :
    Flush M s f =
      ⟨true, some s.buffer_,
        { s with
          buffer_ := [],
          last_send_ended_with_newline_ := decide (byteAt s.buffer_ (s.buffer_.length - 1) = lf),
          file_ := ⟨true, s.file_.content ++ RemoveTransmissionPeriod_ s.buffer_⟩ }⟩ := by
  have hpos : 0 < s.buffer_.length := List.length_pos.mpr hne
  have hlen : s.buffer_.length - 1 + 1 = s.buffer_.length := by omega
  have habuse : abuseCheck M s = s := by
    unfold abuseCheck
    simp [Nat.not_lt.mpr hfit]
  rw [Flush_last M s f hM hgo hne hhit, habuse]
  have hclose : closeWhenEnded (flushAt s (s.buffer_.length - 1))
      = flushAt s (s.buffer_.length - 1) := by
    unfold closeWhenEnded
    rw [if_neg]
    rintro ⟨h, _⟩
    rw [flushAt_ended, hend] at h
    exact Bool.noConfusion h
  rw [hclose]
  unfold flushAt
  simp [hr, hlen, Empty, SaveToFile_, hq, hc, File.Write, hopen]

/-- The state reached from `quotaReceiver` by a line of `a` bytes, a forced
flush and a line of `b` bytes, all within the ceiling and below 2048 bytes in
total: the next forced flush still writes the second line to the file. -/
theorem quotaReceiverAfter_writes (M a b : Nat) (ha : a + 1 ≤ M) (hb : b + 1 ≤ M)
    (hab : a + b + 2 < 2048) :
    (quotaReceiverAfter M a b).is_sending_ = false ∧
    (quotaReceiverAfter M a b).max_size_kb_ = 1 ∧
    (quotaReceiverAfter M a b).cancel_transmission_ = false ∧
    (quotaReceiverAfter M a b).file_.isOpen = true ∧
    (quotaReceiverAfter M a b).data_sent_ = ((a + b + 2 : Nat) : Int) ∧
    (Flush M (quotaReceiverAfter M a b) true).dataProcessed = true ∧
    (Flush M (quotaReceiverAfter M a b) true).ready = some (lineOf b) ∧
    (Flush M (quotaReceiverAfter M a b) true).state.file_.content
      = (quotaReceiverAfter M a b).file_.content ++ lineOf b := by
  have hA1 := Append_no_dot quotaReceiver (lineOf a)
    (by simpa [quotaReceiver, SetMaxSizeKB, InitializeFile, construct] using lineOf_no_dot a)
  have hb1 : quotaReceiver.buffer_ ++ lineOf a = lineOf a := rfl
  have hq0 : quotaReceiver.data_sent_ = 0 := rfl
  have hd1 : countAfter quotaReceiver.data_sent_ (lineOf a).length = ((a + 1 : Nat) : Int) := by
    rw [lineOf_length, hq0, countAfter_small 0 (a + 1) (le_refl _) (by push_cast; omega)]
    simp
  have hd2 : countAfter ((a + 1 : Nat) : Int) (lineOf b).length = ((a + b + 2 : Nat) : Int) := by
    rw [lineOf_length, countAfter_small _ _ (by omega) (by push_cast; omega)]
    push_cast
    omega
  rw [hb1, hd1] at hA1
  have hF1 := Flush_last_receiving M (Append quotaReceiver (lineOf a)) true (by omega)
    (Or.inr rfl) (by rw [hA1]; exact lineOf_ne_nil a) (Or.inr (Or.inl rfl)) (by rw [hA1]; rfl)
    (by
      rw [hA1]
      intro h
      exact tdiv_1024_le_one ((a + 1 : Nat) : Int) (by omega) (by omega) h.2)
    (by rw [hA1]; rfl) (by rw [hA1]; simpa [lineOf_length] using ha) (by rw [hA1]; rfl)
    (by rw [hA1]; rfl)
  rw [hA1] at hF1
  simp only [RemoveTransmissionPeriod_no_dot _ (lineOf_no_dot a)] at hF1
  have hS : quotaReceiverAfter M a b =
      { quotaReceiver with
        buffer_ := lineOf b
        data_sent_ := ((a + b + 2 : Nat) : Int)
        last_send_ended_with_newline_ := decide (byteAt (lineOf a) ((lineOf a).length - 1) = lf)
        file_ := ⟨true, quotaReceiver.file_.content ++ lineOf a⟩ } := by
    unfold quotaReceiverAfter
    rw [hA1, hF1]
    rw [Append_no_dot _ _ (by simpa using lineOf_no_dot b)]
    simp only [hd2]
    simp
  have hF2 := Flush_last_receiving M (quotaReceiverAfter M a b) true (by omega)
    (Or.inr rfl) (by rw [hS]; exact lineOf_ne_nil b) (Or.inr (Or.inl rfl)) (by rw [hS]; rfl)
    (by
      rw [hS]
      intro h
      exact tdiv_1024_le_one ((a + b + 2 : Nat) : Int) (by omega) (by omega) h.2)
    (by rw [hS]; rfl) (by rw [hS]; simpa [lineOf_length] using hb) (by rw [hS])
    (by rw [hS]; rfl)
  rw [hF2]
  have hbuf : (quotaReceiverAfter M a b).buffer_ = lineOf b := by rw [hS]
  refine ⟨by rw [hS]; rfl, by rw [hS]; rfl, by rw [hS]; rfl, by rw [hS], by rw [hS], rfl, ?_, ?_⟩
  · simp only [hbuf]
  · simp only [hbuf, RemoveTransmissionPeriod_no_dot _ (lineOf_no_dot b)]

/-- C10, as stated, fails: with MAX_LINE_LENGTH = 1000 and a quota of 1 KB, after
a line of 1000 bytes has been appended and flushed and a line of 25 bytes has
been appended, bytes_total is 1025 (more than 1024), the buffer is not
cancelled, and the forced flush carves the 25-byte line and appends it to the
file: 1025 / 1024 = 1 does not exceed the quota. -/
theorem C10_write_after_1024_bytes :
    (quotaReceiverAfter 1000 999 24).is_sending_ = false ∧
    (quotaReceiverAfter 1000 999 24).max_size_kb_ = 1 ∧
    (quotaReceiverAfter 1000 999 24).cancel_transmission_ = false ∧
    (quotaReceiverAfter 1000 999 24).file_.isOpen = true ∧
    (quotaReceiverAfter 1000 999 24).data_sent_ = 1025 ∧
    (Flush 1000 (quotaReceiverAfter 1000 999 24) true).dataProcessed = true ∧
    (Flush 1000 (quotaReceiverAfter 1000 999 24) true).ready = some (lineOf 24) ∧
    (Flush 1000 (quotaReceiverAfter 1000 999 24) true).state.file_.content
      = (quotaReceiverAfter 1000 999 24).file_.content ++ lineOf 24 :=
  quotaReceiverAfter_writes 1000 999 24 (by norm_num) (by norm_num) (by norm_num)

/-- In the receiving direction, once the quota test fires the loop body leaves
the file as it was. -/
theorem flushAt_content_over_quota (s : TransparentTransmissionBuffer) (i : Nat)
    (hr : s.is_sending_ = false)
    (hq : 0 < s.max_size_kb_ ∧ s.max_size_kb_ < Int.tdiv s.data_sent_ 1024) :
    (flushAt s i).state.file_.content = s.file_.content := by
  unfold flushAt
  simp [hr, SaveToFile_, hq]

/-- C10, amended: for a receiving buffer with a file sink, max_size_kb = 1 and
cancelled = false, every Flush called while bytes_total / 1024 exceeds 1, that
is while bytes_total is at least 2048, writes nothing to the file; a segment it
carves is still removed from the front of the buffer and Flush then returns
true. -/
theorem C10_quota_skips_write (M : Nat) (s : TransparentTransmissionBuffer) (f : Bool)
    (hr : s.is_sending_ = false) (hmax : s.max_size_kb_ = 1)
    (_hc : s.cancel_transmission_ = false) (hbytes : 2048 ≤ s.data_sent_) :
    (Flush M s f).state.file_.content = s.file_.content ∧
    ∀ seg, (Flush M s f).ready = some seg →
      (Flush M s f).dataProcessed = true ∧ s.buffer_ = seg ++ (Flush M s f).state.buffer_ := by
  have hq : 0 < (abuseCheck M s).max_size_kb_ ∧
      (abuseCheck M s).max_size_kb_ < Int.tdiv (abuseCheck M s).data_sent_ 1024 := by
    rw [abuseCheck_max_size, abuseCheck_data_sent, hmax]
    exact ⟨by norm_num, one_lt_tdiv_1024 _ hbytes⟩
  rw [Flush_eq]
  split
  · exact ⟨rfl, fun seg h => by simp at h⟩
  · cases hfs : findSplit (abuseCheck M s).buffer_ (f || decide (M < s.buffer_.length))
        ((abuseCheck M s).buffer_.length - M) (abuseCheck M s).buffer_.length with
    | none =>
      refine ⟨by simp, fun seg h => ?_⟩
      simp at h
    | some i =>
      refine ⟨?_, fun seg h => ?_⟩
      · simp only [closeWhenEnded_content]
        rw [flushAt_content_over_quota _ i (by simpa using hr) hq, abuseCheck_file]
      · simp only [closeWhenEnded_ready, flushAt_ready, abuseCheck_buffer, Option.some.injEq] at h
        simp only [closeWhenEnded_dataProcessed, flushAt_dataProcessed, closeWhenEnded_buffer,
          flushAt_buffer, abuseCheck_buffer, true_and]
        rw [← h, List.take_append_drop]

/-- C10, amended, at a receiving buffer with an open file, a quota of 1 KB,
bytes_total = 2048 and the line `'a'` LF in the buffer, MAX_LINE_LENGTH = 1000,
Flush(true): the line is carved and the file stays empty. -/
theorem C10_quota_skips_write_witness :
    quotaReceiverFull.is_sending_ = false ∧
    quotaReceiverFull.max_size_kb_ = 1 ∧
    quotaReceiverFull.cancel_transmission_ = false ∧
    (2048 : Int) ≤ quotaReceiverFull.data_sent_ ∧
    (Flush 1000 quotaReceiverFull true).ready = some [97, lf] ∧
    ((Flush 1000 quotaReceiverFull true).state.file_.content = quotaReceiverFull.file_.content ∧
     ∀ seg, (Flush 1000 quotaReceiverFull true).ready = some seg →
        (Flush 1000 quotaReceiverFull true).dataProcessed = true ∧
        quotaReceiverFull.buffer_ = seg ++ (Flush 1000 quotaReceiverFull true).state.buffer_) :=
  ⟨rfl, rfl, rfl, by decide, by decide,
   C10_quota_skips_write 1000 quotaReceiverFull true rfl rfl rfl (by decide)⟩

/-! ## C11: the unforced flush that does nothing -/

theorem byteAt_mem (buf : List Byte) (i : Nat) (h : i < buf.length) : byteAt buf i ∈ buf := by
  unfold byteAt
  rw [List.getD_eq_getElem?_getD, List.getElem?_eq_getElem h]
  exact List.getElem_mem h

/-- Without a line feed in the buffer and without force, the search loop runs to
its end without firing. -/
theorem findSplit_no_lf (buf : List Byte) (e : Nat) (h : ∀ c ∈ buf, c ≠ lf) :
    ∀ n, n ≤ buf.length → findSplit buf false e n = none := by
  intro n
  induction n with
  | zero => intro _; rfl
  | succ i ih =>
    intro hi
    have hne : byteAt buf i ≠ lf := h _ (byteAt_mem buf i (by omega))
    unfold findSplit
    by_cases he : i < e
    · simp [he]
    · simp [he, hne, ih (by omega)]

theorem abuseCheck_within (M : Nat) (s : TransparentTransmissionBuffer)
    (h : s.buffer_.length ≤ M) : abuseCheck M s = s := by
  unfold abuseCheck
  simp [Nat.not_lt.mpr h]

@[simp] theorem closeWhenEnded_last_send (r : FlushResult) :
    (closeWhenEnded r).state.last_send_ended_with_newline_
      = r.state.last_send_ended_with_newline_ := by
  unfold closeWhenEnded; split <;> rfl

@[simp] theorem closeWhenEnded_data_sent (r : FlushResult) :
    (closeWhenEnded r).state.data_sent_ = r.state.data_sent_ := by
  unfold closeWhenEnded; split <;> rfl

@[simp] theorem closeWhenEnded_is_sending (r : FlushResult) :
    (closeWhenEnded r).state.is_sending_ = r.state.is_sending_ := by
  unfold closeWhenEnded; split <;> rfl

@[simp] theorem closeWhenEnded_max_size (r : FlushResult) :
    (closeWhenEnded r).state.max_size_kb_ = r.state.max_size_kb_ := by
  unfold closeWhenEnded; split <;> rfl

/-- C11: Flush(false) returns false, carves nothing, delivers nothing to the
connection or the file and leaves the buffer unchanged whenever (a)
RequiresFlush() is false, in which case no field of the object changes at all,
or (b) the buffer holds at most MAX_LINE_LENGTH bytes and no line feed. -/
theorem C11_unforced_flush_noop (M : Nat) (s : TransparentTransmissionBuffer)
    (h : GetRequiresFlush s = false ∨
      (s.buffer_.length ≤ M ∧ ∀ c ∈ s.buffer_, c ≠ lf)) :
    (Flush M s false).dataProcessed = false ∧
    (Flush M s false).ready = none ∧
    (Flush M s false).state.buffer_ = s.buffer_ ∧
    (Flush M s false).state.tcp_connection_ = s.tcp_connection_ ∧
    (Flush M s false).state.file_.content = s.file_.content ∧
    (GetRequiresFlush s = false → (Flush M s false).state = s) := by
  by_cases hreq : GetRequiresFlush s = false
  · rw [Flush_gate M s hreq]
    exact ⟨rfl, rfl, rfl, rfl, rfl, fun _ => rfl⟩
  · rcases h with h | ⟨hfit, hnolf⟩
    · exact absurd h hreq
    · have hgate : ¬ (GetRequiresFlush s = false ∧ false = false) := fun hh => hreq hh.1
      rw [Flush_eq, if_neg hgate, abuseCheck_within M s hfit]
      have hdec : (false || decide (M < s.buffer_.length)) = false := by
        simp [Nat.not_lt.mpr hfit]
      rw [hdec, findSplit_no_lf s.buffer_ _ hnolf _ (le_refl _)]
      refine ⟨by simp, by simp, by simp, by simp, by simp, fun hh => absurd hh hreq⟩

/-- C11 at two states, MAX_LINE_LENGTH = 1000: (a) a receiving buffer holding
`'a'` LF, not ended, so that RequiresFlush() is false; (b) a receiving buffer
after Append('.' CR LF 'a'), ended, holding the single byte '.'. -/
theorem C11_unforced_flush_noop_witness :
    (GetRequiresFlush (Append (construct false) [97, 10]) = false ∧
     Flush 1000 (Append (construct false) [97, 10]) false
        = ⟨false, none, Append (construct false) [97, 10]⟩) ∧
    (GetRequiresFlush (Append (construct false) [46, 13, 10, 97]) = true ∧
     (Append (construct false) [46, 13, 10, 97]).buffer_.length ≤ 1000 ∧
     (∀ c ∈ (Append (construct false) [46, 13, 10, 97]).buffer_, c ≠ lf) ∧
     (Flush 1000 (Append (construct false) [46, 13, 10, 97]) false).dataProcessed = false ∧
     (Flush 1000 (Append (construct false) [46, 13, 10, 97]) false).state.buffer_
        = (Append (construct false) [46, 13, 10, 97]).buffer_) := by
  have ha := C11_unforced_flush_noop 1000 (Append (construct false) [97, 10])
    (Or.inl (by decide))
  have hb := C11_unforced_flush_noop 1000 (Append (construct false) [46, 13, 10, 97])
    (Or.inr ⟨by decide, by decide⟩)
  refine ⟨⟨by decide, ?_⟩, by decide, by decide, by decide, hb.1, hb.2.2.1⟩
  have hst := ha.2.2.2.2.2 (by decide)
  have hdp := ha.1
  have hrd := ha.2.1
  cases hF : Flush 1000 (Append (construct false) [97, 10]) false with
  | mk dp rd st =>
    rw [hF] at hst hdp hrd
    simp only at hst hdp hrd
    rw [hst, hdp, hrd]

/-! ## C12: the split at the last line boundary -/

/-- With a line feed at index `pre.length` and none after it, the unforced
search loop fires at that index. -/
theorem findSplit_rightmost (pre post : List Byte) (e : Nat) (he : e ≤ pre.length)
    (hpost : ∀ c ∈ post, c ≠ lf) :
    ∀ k, k ≤ post.length →
      findSplit (pre ++ lf :: post) false e (pre.length + 1 + k) = some pre.length := by
  intro k
  induction k with
  | zero =>
    intro _
    exact findSplit_hit _ _ _ _ he (Or.inl (byteAt_append_length pre lf post))
  | succ k ih =>
    intro hk
    have hidx : byteAt (pre ++ lf :: post) (pre.length + 1 + k) = byteAt post k := by
      have h := byteAt_append_add (pre ++ [lf]) post k
      simpa using h
    have hne : byteAt (pre ++ lf :: post) (pre.length + 1 + k) ≠ lf := by
      rw [hidx]; exact hpost _ (byteAt_mem post k (by omega))
    have hlt : ¬ (pre.length + 1 + k < e) := by omega
    show findSplit (pre ++ lf :: post) false e ((pre.length + 1 + k) + 1) = some pre.length
    unfold findSplit
    simp [hlt, hne, ih (by omega)]

@[simp] theorem flushAt_last_send (s : TransparentTransmissionBuffer) (i : Nat) :
    (flushAt s i).state.last_send_ended_with_newline_ = decide (byteAt s.buffer_ i = lf) := by
  unfold flushAt
  simp only
  split
  · split <;> rfl
  · unfold SaveToFile_
    split
    · rfl
    · split <;> rfl

theorem exists_rightmost_lf (l : List Byte) (h : lf ∈ l) :
    ∃ pre post, l = pre ++ lf :: post ∧ ∀ c ∈ post, c ≠ lf := by
  induction l with
  | nil => simp at h
  | cons c t ih =>
    by_cases ht : lf ∈ t
    · obtain ⟨pre, post, hl, hp⟩ := ih ht
      exact ⟨c :: pre, post, by rw [hl]; rfl, hp⟩
    · have hc : c = lf := by
        rcases List.mem_cons.mp h with h1 | h1
        · exact h1.symm
        · exact absurd h1 ht
      subst hc
      exact ⟨[], t, rfl, fun x hx hxe => ht (hxe ▸ hx)⟩

/-- The unforced flush past the gate, on a buffer within the ceiling whose
rightmost line feed is followed by `post`. -/
theorem Flush_rightmost (M : Nat) (s : TransparentTransmissionBuffer)
    (pre post : List Byte)
    (hreq : GetRequiresFlush s = true) (hfit : s.buffer_.length ≤ M)
    (hbuf : s.buffer_ = pre ++ lf :: post) (hpost : ∀ c ∈ post, c ≠ lf) :
    (Flush M s false).ready = some (pre ++ [lf]) ∧
    (Flush M s false).state.buffer_ = post ∧
    (Flush M s false).state.last_send_ended_with_newline_ = true ∧
    (Flush M s false).dataProcessed = true := by
  have hgate : ¬ (GetRequiresFlush s = false ∧ false = false) := by
    rintro ⟨h1, _⟩; rw [hreq] at h1; exact Bool.noConfusion h1
  have hdec : (false || decide (M < s.buffer_.length)) = false := by
    simp [Nat.not_lt.mpr hfit]
  have hlen : s.buffer_.length = pre.length + 1 + post.length := by
    rw [hbuf]; simp; omega
  have hfs : findSplit s.buffer_ false (s.buffer_.length - M) s.buffer_.length
      = some pre.length := by
    have h0 : s.buffer_.length - M = 0 := by omega
    rw [h0, hlen, hbuf]
    exact findSplit_rightmost pre post 0 (Nat.zero_le _) hpost _ (le_refl _)
  have htake : List.take (pre.length + 1) (pre ++ lf :: post) = pre ++ [lf] := by
    have h : pre ++ lf :: post = (pre ++ [lf]) ++ post := by simp
    rw [h, List.take_left']
    simp
  have hdrop : List.drop (pre.length + 1) (pre ++ lf :: post) = post := by
    have h : pre ++ lf :: post = (pre ++ [lf]) ++ post := by simp
    rw [h, List.drop_left']
    simp
  rw [Flush_eq, if_neg hgate, abuseCheck_within M s hfit, hdec, hfs]
  refine ⟨?_, ?_, ?_, by simp⟩
  · simp [hbuf, htake]
  · simp [hbuf, hdrop]
  · simp [hbuf, byteAt_append_length]

/-- C12: when Flush(false) is called with RequiresFlush() true on a buffer of at
most MAX_LINE_LENGTH bytes that contains a line feed, the buffer splits as
`pre`, the rightmost line feed, `post` (with no line feed in `post`); the ready
segment is `pre` with that line feed, the buffer afterwards is `post`,
last_send_ended_with_newline_ is true and Flush returns true. -/
theorem C12_split_at_last_line_feed (M : Nat) (s : TransparentTransmissionBuffer)
    (hreq : GetRequiresFlush s = true) (hfit : s.buffer_.length ≤ M)
    (hlf : lf ∈ s.buffer_) :
    ∃ pre post, s.buffer_ = pre ++ lf :: post ∧ (∀ c ∈ post, c ≠ lf) ∧
      (Flush M s false).ready = some (pre ++ [lf]) ∧
      (Flush M s false).state.buffer_ = post ∧
      (Flush M s false).state.last_send_ended_with_newline_ = true ∧
      (Flush M s false).dataProcessed = true := by
  obtain ⟨pre, post, hbuf, hpost⟩ := exists_rightmost_lf s.buffer_ hlf
  exact ⟨pre, post, hbuf, hpost, Flush_rightmost M s pre post hreq hfit hbuf hpost⟩

/-- C12 at the receiving buffer reached by Append('a' CR LF '.' CR LF) and
Append('b'), which holds `a CR LF b` with ended true, MAX_LINE_LENGTH = 1000. -/
theorem C12_split_at_last_line_feed_witness :
    GetRequiresFlush (Append (Append (construct false) [97, 13, 10, 46, 13, 10]) [98]) = true ∧
    (Append (Append (construct false) [97, 13, 10, 46, 13, 10]) [98]).buffer_.length ≤ 1000 ∧
    lf ∈ (Append (Append (construct false) [97, 13, 10, 46, 13, 10]) [98]).buffer_ ∧
    ∃ pre post,
      (Append (Append (construct false) [97, 13, 10, 46, 13, 10]) [98]).buffer_
        = pre ++ lf :: post ∧ (∀ c ∈ post, c ≠ lf) ∧
      (Flush 1000 (Append (Append (construct false) [97, 13, 10, 46, 13, 10]) [98]) false).ready
        = some (pre ++ [lf]) ∧
      (Flush 1000 (Append (Append (construct false) [97, 13, 10, 46, 13, 10]) [98])
        false).state.buffer_ = post ∧
      (Flush 1000 (Append (Append (construct false) [97, 13, 10, 46, 13, 10]) [98])
        false).state.last_send_ended_with_newline_ = true ∧
      (Flush 1000 (Append (Append (construct false) [97, 13, 10, 46, 13, 10]) [98])
        false).dataProcessed = true :=
  ⟨by decide, by decide, by decide,
   C12_split_at_last_line_feed 1000
     (Append (Append (construct false) [97, 13, 10, 46, 13, 10]) [98])
     (by decide) (by decide) (by decide)⟩
/-! ## C13: the forced flush -/

/-- C13: for a positive MAX_LINE_LENGTH, Flush(true) on a non-empty buffer
returns true, carves the whole buffer as the ready segment, leaves the buffer
empty and sets last_send_ended_with_newline_ to true exactly when the last
byte of the buffer was a line feed; on an empty buffer it carves nothing and
returns false. -/
theorem C13_forced_flush_drains (M : Nat) (s : TransparentTransmissionBuffer) (hM : 1 ≤ M) :
    (s.buffer_ ≠ [] →
      (Flush M s true).dataProcessed = true ∧
      (Flush M s true).ready = some s.buffer_ ∧
      (Flush M s true).state.buffer_ = [] ∧
      ((Flush M s true).state.last_send_ended_with_newline_ = true ↔
        byteAt s.buffer_ (s.buffer_.length - 1) = lf)) ∧
    (s.buffer_ = [] →
      (Flush M s true).dataProcessed = false ∧
      (Flush M s true).ready = none ∧
      (Flush M s true).state.buffer_ = []) := by
  constructor
  · intro hne
    have hpos : 0 < s.buffer_.length := List.length_pos.mpr hne
    have hlen : s.buffer_.length - 1 + 1 = s.buffer_.length := by omega
    rw [Flush_last M s true hM (Or.inr rfl) hne (Or.inr (Or.inl rfl))]
    refine ⟨by simp, by simp [hlen], by simp [hlen], by simp⟩
  · intro he
    rw [Flush_empty M s true (Or.inr rfl) he]
    refine ⟨by simp, by simp, by simpa using he⟩

/-- C13 at MAX_LINE_LENGTH = 1000: the sending buffer holding `a LF b` is
drained whole with last_send_ended_with_newline_ false, and the empty sending
buffer yields nothing. -/
theorem C13_forced_flush_drains_witness :
    1 ≤ 1000 ∧
    ((Flush 1000 (Append freshSender [97, 10, 98]) true).dataProcessed = true ∧
     (Flush 1000 (Append freshSender [97, 10, 98]) true).ready = some [97, 10, 98] ∧
     (Flush 1000 (Append freshSender [97, 10, 98]) true).state.buffer_ = [] ∧
     (Flush 1000 (Append freshSender [97, 10, 98]) true).state.last_send_ended_with_newline_
        = false) ∧
    ((Flush 1000 freshSender true).dataProcessed = false ∧
     (Flush 1000 freshSender true).ready = none) := by
  have h1 := (C13_forced_flush_drains 1000 (Append freshSender [97, 10, 98]) (by decide)).1
    (by decide)
  have h2 := (C13_forced_flush_drains 1000 freshSender (by decide)).2 rfl
  refine ⟨by decide, ⟨h1.1, h1.2.1, h1.2.2.1, ?_⟩, h2.1, h2.2.1⟩
  cases hb : (Flush 1000 (Append freshSender [97, 10, 98]) true).state.last_send_ended_with_newline_
  · rfl
  · exact absurd (h1.2.2.2.mp hb) (by decide)

/-! ## C14: a connection that is gone -/

theorem abuseCheck_dropConnection (M : Nat) (s : TransparentTransmissionBuffer) :
    abuseCheck M (dropConnection s) = dropConnection (abuseCheck M s) := by
  unfold abuseCheck dropConnection
  split <;> rfl

theorem SaveToFile_dropConnection (s : TransparentTransmissionBuffer) (p : List Byte) :
    dropConnection (SaveToFile_ (dropConnection s) p).2 = dropConnection (SaveToFile_ s p).2 := by
  unfold SaveToFile_ dropConnection
  simp only
  split
  · rfl
  · split <;> rfl

theorem flushAt_dropConnection (s : TransparentTransmissionBuffer) (i : Nat) :
    dropConnection (flushAt (dropConnection s) i).state = dropConnection (flushAt s i).state := by
  cases hs : s.is_sending_
  · have h := SaveToFile_dropConnection
      { s with last_send_ended_with_newline_ := decide (byteAt s.buffer_ i = lf),
               buffer_ := Empty s.buffer_ (s.buffer_.length - (i + 1)) }
      (RemoveTransmissionPeriod_ (s.buffer_.take (i + 1)))
    unfold flushAt
    simpa [dropConnection, hs] using h
  · unfold flushAt
    cases ht : s.tcp_connection_ <;> simp [dropConnection, hs, ht]

/-- Two objects that agree once their handles are dropped agree on every member
other than the handle. -/
theorem dropConnection_fields (a b : TransparentTransmissionBuffer)
    (h : dropConnection a = dropConnection b) :
    a.buffer_ = b.buffer_ ∧ a.transmission_ended_ = b.transmission_ended_ ∧
    a.cancel_transmission_ = b.cancel_transmission_ ∧
    a.last_send_ended_with_newline_ = b.last_send_ended_with_newline_ ∧
    a.data_sent_ = b.data_sent_ ∧ a.file_ = b.file_ := by
  have h1 : (dropConnection a).buffer_ = (dropConnection b).buffer_ := by rw [h]
  have h2 : (dropConnection a).transmission_ended_ = (dropConnection b).transmission_ended_ := by
    rw [h]
  have h3 : (dropConnection a).cancel_transmission_ = (dropConnection b).cancel_transmission_ := by
    rw [h]
  have h4 : (dropConnection a).last_send_ended_with_newline_
      = (dropConnection b).last_send_ended_with_newline_ := by rw [h]
  have h5 : (dropConnection a).data_sent_ = (dropConnection b).data_sent_ := by rw [h]
  have h6 : (dropConnection a).file_ = (dropConnection b).file_ := by rw [h]
  exact ⟨h1, h2, h3, h4, h5, h6⟩

theorem closeWhenEnded_dropConnection (r1 r2 : FlushResult)
    (h : dropConnection r1.state = dropConnection r2.state) :
    dropConnection (closeWhenEnded r1).state = dropConnection (closeWhenEnded r2).state := by
  have he : r1.state.transmission_ended_ = r2.state.transmission_ended_ :=
    (dropConnection_fields _ _ h).2.1
  have hf : r1.state.file_ = r2.state.file_ :=
    (dropConnection_fields _ _ h).2.2.2.2.2
  unfold closeWhenEnded
  rw [he, hf]
  split
  · unfold dropConnection at h ⊢
    simp only [TransparentTransmissionBuffer.mk.injEq] at h ⊢
    simp [h]
  · exact h

/-- The connection handle has no influence on what `Flush` returns, on the
segment it carves, or on any member other than the handle itself. -/
theorem Flush_dropConnection (M : Nat) (s : TransparentTransmissionBuffer) (f : Bool) :
    (Flush M (dropConnection s) f).dataProcessed = (Flush M s f).dataProcessed ∧
    (Flush M (dropConnection s) f).ready = (Flush M s f).ready ∧
    dropConnection (Flush M (dropConnection s) f).state = dropConnection (Flush M s f).state := by
  have hg : GetRequiresFlush (dropConnection s) = GetRequiresFlush s := rfl
  have hb : (dropConnection s).buffer_ = s.buffer_ := rfl
  simp only [Flush_eq, hg, hb, abuseCheck_buffer]
  by_cases hgate : GetRequiresFlush s = false ∧ f = false
  · simp only [if_pos hgate]
    exact ⟨trivial, trivial, rfl⟩
  · simp only [if_neg hgate]
    cases findSplit s.buffer_ (f || decide (M < s.buffer_.length)) (s.buffer_.length - M)
        s.buffer_.length with
    | none =>
      refine ⟨by simp, by simp, ?_⟩
      apply closeWhenEnded_dropConnection
      simp only [abuseCheck_dropConnection]
      rfl
    | some i =>
      refine ⟨by simp, by simp [hb], ?_⟩
      apply closeWhenEnded_dropConnection
      rw [abuseCheck_dropConnection]
      exact flushAt_dropConnection _ i

@[simp] theorem flushAt_data_sent (s : TransparentTransmissionBuffer) (i : Nat) :
    (flushAt s i).state.data_sent_ = s.data_sent_ := by
  unfold flushAt
  simp only
  split
  · split <;> rfl
  · unfold SaveToFile_
    split
    · rfl
    · split <;> rfl

/-- The running count `data_sent_` is not touched by `Flush`. -/
theorem Flush_data_sent (M : Nat) (s : TransparentTransmissionBuffer) (f : Bool) :
    (Flush M s f).state.data_sent_ = s.data_sent_ := by
  rw [Flush_eq]
  split
  · rfl
  · cases findSplit (abuseCheck M s).buffer_ (f || decide (M < s.buffer_.length))
        ((abuseCheck M s).buffer_.length - M) (abuseCheck M s).buffer_.length with
    | none => simp
    | some i => simp

/-- An expired handle stays expired: `Flush` enqueues nothing on it. -/
theorem Flush_tcp_none (M : Nat) (s : TransparentTransmissionBuffer) (f : Bool)
    (h : s.tcp_connection_ = none) : (Flush M s f).state.tcp_connection_ = none := by
  rw [Flush_eq]
  split
  · exact h
  · cases findSplit (abuseCheck M s).buffer_ (f || decide (M < s.buffer_.length))
        ((abuseCheck M s).buffer_.length - M) (abuseCheck M s).buffer_.length with
    | none => simpa using h
    | some i =>
      simp only [closeWhenEnded_tcp]
      unfold flushAt SaveToFile_
      simp only [abuseCheck_tcp, abuseCheck_is_sending, h]
      split_ifs <;> rfl

/-- C14: for every sending buffer state whose handle resolves to a connection
and either value of force, Flush on the same state with the handle expired
returns the same value and leaves the same buffer, ended, cancelled,
last_send_ended_with_newline_ and bytes_total; with the expired handle nothing
is enqueued, and in both cases bytes_total is unchanged by Flush. -/
theorem C14_dead_connection_tolerance (M : Nat) (s : TransparentTransmissionBuffer) (f : Bool)
    (q : List (List Byte)) (_hs : s.is_sending_ = true) (_hq : s.tcp_connection_ = some q) :
    (Flush M (dropConnection s) f).dataProcessed = (Flush M s f).dataProcessed ∧
    (Flush M (dropConnection s) f).state.buffer_ = (Flush M s f).state.buffer_ ∧
    (Flush M (dropConnection s) f).state.transmission_ended_
      = (Flush M s f).state.transmission_ended_ ∧
    (Flush M (dropConnection s) f).state.cancel_transmission_
      = (Flush M s f).state.cancel_transmission_ ∧
    (Flush M (dropConnection s) f).state.last_send_ended_with_newline_
      = (Flush M s f).state.last_send_ended_with_newline_ ∧
    (Flush M (dropConnection s) f).state.data_sent_ = (Flush M s f).state.data_sent_ ∧
    (Flush M (dropConnection s) f).state.tcp_connection_ = none ∧
    (Flush M s f).state.data_sent_ = s.data_sent_ ∧
    (Flush M (dropConnection s) f).state.data_sent_ = s.data_sent_ := by
  obtain ⟨h1, _, h3⟩ := Flush_dropConnection M s f
  refine ⟨h1, ?_, ?_, ?_, ?_, ?_, Flush_tcp_none M _ f rfl, Flush_data_sent M s f,
    Flush_data_sent M (dropConnection s) f⟩
  · exact (dropConnection_fields _ _ h3).1
  · exact (dropConnection_fields _ _ h3).2.1
  · exact (dropConnection_fields _ _ h3).2.2.1
  · exact (dropConnection_fields _ _ h3).2.2.2.1
  · exact (dropConnection_fields _ _ h3).2.2.2.2.1

/-- C14 at the sending buffer holding `. a LF` with a live connection,
MAX_LINE_LENGTH = 1000, Flush(true): alive, the stuffed segment is enqueued;
expired, nothing is. -/
theorem C14_dead_connection_tolerance_witness :
    (Append freshSender [46, 97, 10]).is_sending_ = true ∧
    (Append freshSender [46, 97, 10]).tcp_connection_ = some [] ∧
    (Flush 1000 (Append freshSender [46, 97, 10]) true).state.tcp_connection_
      = some [[46, 46, 97, 10]] ∧
    ((Flush 1000 (dropConnection (Append freshSender [46, 97, 10])) true).dataProcessed
        = (Flush 1000 (Append freshSender [46, 97, 10]) true).dataProcessed ∧
     (Flush 1000 (dropConnection (Append freshSender [46, 97, 10])) true).state.buffer_
        = (Flush 1000 (Append freshSender [46, 97, 10]) true).state.buffer_ ∧
     (Flush 1000 (dropConnection (Append freshSender [46, 97, 10])) true).state.transmission_ended_
        = (Flush 1000 (Append freshSender [46, 97, 10]) true).state.transmission_ended_ ∧
     (Flush 1000 (dropConnection (Append freshSender [46, 97, 10])) true).state.cancel_transmission_
        = (Flush 1000 (Append freshSender [46, 97, 10]) true).state.cancel_transmission_ ∧
     (Flush 1000 (dropConnection (Append freshSender [46, 97, 10]))
          true).state.last_send_ended_with_newline_
        = (Flush 1000 (Append freshSender [46, 97, 10]) true).state.last_send_ended_with_newline_ ∧
     (Flush 1000 (dropConnection (Append freshSender [46, 97, 10])) true).state.data_sent_
        = (Flush 1000 (Append freshSender [46, 97, 10]) true).state.data_sent_ ∧
     (Flush 1000 (dropConnection (Append freshSender [46, 97, 10])) true).state.tcp_connection_
        = none ∧
     (Flush 1000 (Append freshSender [46, 97, 10]) true).state.data_sent_
        = (Append freshSender [46, 97, 10]).data_sent_ ∧
     (Flush 1000 (dropConnection (Append freshSender [46, 97, 10])) true).state.data_sent_
        = (Append freshSender [46, 97, 10]).data_sent_) :=
  ⟨by decide, by decide, by decide,
   C14_dead_connection_tolerance 1000 (Append freshSender [46, 97, 10]) true []
     (by decide) (by decide)⟩

/-! ## C15: the size of the transformed segment -/

theorem insertStep_length (p out : List Byte) (i : Nat) :
    (insertStep p out i).length = out.length + 1 + (if leadingDotAt p i then 1 else 0) := by
  unfold insertStep leadingDotAt
  by_cases hd : byteAt p i = dot
  · by_cases h0 : i = 0
    · subst h0
      simp [hd]
    · by_cases hc : 2 < i ∧ byteAt p (i - 1) = lf
      · simp [hd, h0, hc]
      · simp [hd, h0, hc]
  · simp [hd]

theorem removeStep_length (p out : List Byte) (i : Nat) :
    (removeStep p out i).length + (if leadingDotAt p i then 1 else 0) = out.length + 1 := by
  unfold removeStep leadingDotAt
  by_cases hd : byteAt p i = dot
  · by_cases h0 : i = 0
    · subst h0
      simp [hd]
    · by_cases hc : 2 < i ∧ byteAt p (i - 1) = lf
      · simp [hd, h0, hc]
      · simp [hd, h0, hc]
  · simp [hd]

theorem leadingDots_succ (p : List Byte) (k : Nat) :
    leadingDots p (k + 1) = leadingDots p k + (if leadingDotAt p k then 1 else 0) := by
  unfold leadingDots
  rw [List.range_succ, List.countP_append]
  cases h : leadingDotAt p k <;> simp [List.countP_cons, h]

theorem leadingDots_le (p : List Byte) (k : Nat) : leadingDots p k ≤ k := by
  unfold leadingDots
  have h := List.countP_le_length (leadingDotAt p) (l := List.range k)
  simpa using h

/-- After `k` passes the stuffing loop has written `k` bytes plus one for each
duplicated dot. -/
theorem insert_passes_length (p : List Byte) (k : Nat) :
    ((List.range k).foldl (insertStep p) []).length = k + leadingDots p k := by
  induction k with
  | zero => simp [leadingDots]
  | succ k ih =>
    rw [List.range_succ, List.foldl_append, List.foldl_cons, List.foldl_nil,
      insertStep_length, ih, leadingDots_succ]
    omega

/-- After `k` passes the un-stuffing loop has written `k` bytes less one for
each dropped dot. -/
theorem remove_passes_length (p : List Byte) (k : Nat) :
    ((List.range k).foldl (removeStep p) []).length + leadingDots p k = k := by
  induction k with
  | zero => simp [leadingDots]
  | succ k ih =>
    rw [List.range_succ, List.foldl_append, List.foldl_cons, List.foldl_nil, leadingDots_succ]
    have h := removeStep_length p ((List.range k).foldl (removeStep p) []) k
    omega

/-- C15: for a segment of n bytes, after every number k of passes the stuffing
loop has written at most 2*k bytes and the un-stuffing loop at most k bytes;
InsertTransmissionPeriod_ produces exactly n plus the number of duplicated
dots, at most 2*n, bytes and RemoveTransmissionPeriod_ exactly n minus the
number of dropped dots, at most n, bytes. -/
theorem C15_transform_output_bounds (pBuffer : List Byte) :
    (∀ k, ((List.range k).foldl (insertStep pBuffer) []).length ≤ 2 * k) ∧
    (∀ k, ((List.range k).foldl (removeStep pBuffer) []).length ≤ k) ∧
    (InsertTransmissionPeriod_ pBuffer).length
      = pBuffer.length + leadingDots pBuffer pBuffer.length ∧
    (InsertTransmissionPeriod_ pBuffer).length ≤ 2 * pBuffer.length ∧
    (RemoveTransmissionPeriod_ pBuffer).length
      = pBuffer.length - leadingDots pBuffer pBuffer.length ∧
    (RemoveTransmissionPeriod_ pBuffer).length ≤ pBuffer.length := by
  have hi := insert_passes_length pBuffer
  have hr := remove_passes_length pBuffer
  have hl := leadingDots_le pBuffer
  refine ⟨fun k => ?_, fun k => ?_, ?_, ?_, ?_, ?_⟩
  · have := hi k; have := hl k; omega
  · have := hr k; omega
  · exact hi _
  · unfold InsertTransmissionPeriod_
    have := hi pBuffer.length; have := hl pBuffer.length; omega
  · unfold RemoveTransmissionPeriod_
    have := hr pBuffer.length; omega
  · unfold RemoveTransmissionPeriod_
    have := hr pBuffer.length; omega
/-! ## C16: every byte is carved once, in order -/

@[simp] theorem flushAt_is_sending (s : TransparentTransmissionBuffer) (i : Nat) :
    (flushAt s i).state.is_sending_ = s.is_sending_ := by
  unfold flushAt
  simp only
  split
  · split <;> rfl
  · unfold SaveToFile_
    split
    · rfl
    · split <;> rfl

/-- The members `is_sending_` and `transmission_ended_` are not touched by
`Flush`, and the segment it carves followed by the buffer it leaves is the
buffer it found. -/
theorem Flush_partition (M : Nat) (s : TransparentTransmissionBuffer) (f : Bool) :
    (Flush M s f).state.is_sending_ = s.is_sending_ ∧
    (Flush M s f).state.transmission_ended_ = s.transmission_ended_ ∧
    (Flush M s f).ready.toList.flatten ++ (Flush M s f).state.buffer_ = s.buffer_ := by
  rw [Flush_eq]
  split
  · exact ⟨rfl, rfl, rfl⟩
  · cases findSplit (abuseCheck M s).buffer_ (f || decide (M < s.buffer_.length))
        ((abuseCheck M s).buffer_.length - M) (abuseCheck M s).buffer_.length with
    | none => simp
    | some i => simp

/-- The invariant of a run on a sending buffer. -/
theorem runCalls_sending (M : Nat) (calls : List Call) :
    ∀ r : Run, r.state.is_sending_ = true →
      (runCalls M r calls).state.is_sending_ = true ∧
      (runCalls M r calls).state.transmission_ended_ = r.state.transmission_ended_ ∧
      ∀ base, r.carved.flatten ++ r.state.buffer_ = base ++ r.inputs.flatten →
        (runCalls M r calls).carved.flatten ++ (runCalls M r calls).state.buffer_
          = base ++ (runCalls M r calls).inputs.flatten := by
  induction calls with
  | nil => intro r hs; exact ⟨hs, rfl, fun _ h => h⟩
  | cons c cs ih =>
    intro r hs
    have hstep : (step M r c).state.is_sending_ = true ∧
        (step M r c).state.transmission_ended_ = r.state.transmission_ended_ ∧
        ∀ base, r.carved.flatten ++ r.state.buffer_ = base ++ r.inputs.flatten →
          (step M r c).carved.flatten ++ (step M r c).state.buffer_
            = base ++ (step M r c).inputs.flatten := by
      cases c with
      | append d =>
        simp only [step, Append_sending r.state d hs]
        refine ⟨hs, trivial, fun base h => ?_⟩
        rw [← List.append_assoc, h]
        simp
      | flush f =>
        obtain ⟨h1, h2, h3⟩ := Flush_partition M r.state f
        simp only [step]
        refine ⟨by rw [h1]; exact hs, h2, fun base h => ?_⟩
        rw [List.flatten_append, List.append_assoc, h3, h]
    obtain ⟨h1, h2, h3⟩ := ih (step M r c) hstep.1
    show (runCalls M (step M r c) cs).state.is_sending_ = true ∧
      (runCalls M (step M r c) cs).state.transmission_ended_ = r.state.transmission_ended_ ∧
      ∀ base, r.carved.flatten ++ r.state.buffer_ = base ++ r.inputs.flatten →
        (runCalls M (step M r c) cs).carved.flatten ++ (runCalls M (step M r c) cs).state.buffer_
          = base ++ (runCalls M (step M r c) cs).inputs.flatten
    exact ⟨h1, h2.trans hstep.2.1, fun base h => h3 base (hstep.2.2 base h)⟩

/-- C16: for every sequence of Append and Flush calls on a sending buffer that
starts empty, the ready segments carved so far (before stuffing), in order,
followed by the current buffer are exactly the inputs appended so far, in
order; ended is never set, and an Append on the state reached only adds its
input at the end of the buffer, whatever the input ends with. -/
theorem C16_no_byte_lost_before_transform (M : Nat) (s : TransparentTransmissionBuffer)
    (calls : List Call) (hs : s.is_sending_ = true) (hempty : s.buffer_ = []) :
    (runCalls M (startRun s) calls).carved.flatten ++ (runCalls M (startRun s) calls).state.buffer_
      = (runCalls M (startRun s) calls).inputs.flatten ∧
    (runCalls M (startRun s) calls).state.transmission_ended_ = s.transmission_ended_ ∧
    ∀ d, (Append (runCalls M (startRun s) calls).state d).buffer_
          = (runCalls M (startRun s) calls).state.buffer_ ++ d ∧
        (Append (runCalls M (startRun s) calls).state d).transmission_ended_
          = s.transmission_ended_ := by
  obtain ⟨h1, h2, h3⟩ := runCalls_sending M calls (startRun s) hs
  refine ⟨?_, h2, fun d => ?_⟩
  · have := h3 [] (by simp [startRun, hempty])
    simpa using this
  · rw [Append_sending _ d h1]
    exact ⟨rfl, h2⟩

/-- C16 at the fresh sender, MAX_LINE_LENGTH = 1000, with the calls
Append('a' CR LF '.' CR LF), Flush(false), Append('b'), Flush(true). -/
theorem C16_no_byte_lost_before_transform_witness :
    freshSender.is_sending_ = true ∧ freshSender.buffer_ = [] ∧
    (runCalls 1000 (startRun freshSender)
        [Call.append [97, 13, 10, 46, 13, 10], Call.flush false, Call.append [98],
         Call.flush true]).carved = [[97, 13, 10, 46, 13, 10, 98]] ∧
    ((runCalls 1000 (startRun freshSender)
        [Call.append [97, 13, 10, 46, 13, 10], Call.flush false, Call.append [98],
         Call.flush true]).carved.flatten ++
      (runCalls 1000 (startRun freshSender)
        [Call.append [97, 13, 10, 46, 13, 10], Call.flush false, Call.append [98],
         Call.flush true]).state.buffer_
      = (runCalls 1000 (startRun freshSender)
        [Call.append [97, 13, 10, 46, 13, 10], Call.flush false, Call.append [98],
         Call.flush true]).inputs.flatten ∧
     (runCalls 1000 (startRun freshSender)
        [Call.append [97, 13, 10, 46, 13, 10], Call.flush false, Call.append [98],
         Call.flush true]).state.transmission_ended_ = freshSender.transmission_ended_ ∧
     ∀ d, (Append (runCalls 1000 (startRun freshSender)
            [Call.append [97, 13, 10, 46, 13, 10], Call.flush false, Call.append [98],
             Call.flush true]).state d).buffer_
          = (runCalls 1000 (startRun freshSender)
            [Call.append [97, 13, 10, 46, 13, 10], Call.flush false, Call.append [98],
             Call.flush true]).state.buffer_ ++ d ∧
        (Append (runCalls 1000 (startRun freshSender)
            [Call.append [97, 13, 10, 46, 13, 10], Call.flush false, Call.append [98],
             Call.flush true]).state d).transmission_ended_
          = freshSender.transmission_ended_) :=
  ⟨rfl, rfl, by decide,
   C16_no_byte_lost_before_transform 1000 freshSender
     [Call.append [97, 13, 10, 46, 13, 10], Call.flush false, Call.append [98], Call.flush true]
     rfl rfl⟩

/-! ## C17: what Append removes -/

/-- C17 at the input '.' CR LF 'a' 'b' 'c' on a fresh receiving buffer: Append
leaves '.' CR LF in the buffer, so the three bytes removed are 'a' 'b' 'c' and
the buffer is neither the old buffer with the input nor that with a trailing
'.' CR LF removed. -/
theorem C17_append_removes_other_bytes :
    (Append (construct false) [46, 13, 10, 97, 98, 99]).buffer_ = [46, 13, 10] ∧
    (construct false).buffer_ ++ [46, 13, 10, 97, 98, 99]
      = (Append (construct false) [46, 13, 10, 97, 98, 99]).buffer_ ++ [97, 98, 99] ∧
    (Append (construct false) [46, 13, 10, 97, 98, 99]).buffer_
      ≠ (construct false).buffer_ ++ [46, 13, 10, 97, 98, 99] ∧
    (construct false).buffer_ ++ [46, 13, 10, 97, 98, 99]
      ≠ (Append (construct false) [46, 13, 10, 97, 98, 99]).buffer_ ++ [dot, cr, lf] := by
  decide

/-! ## C18: the running count -/

/-- The method `Append` leaves `data_sent_` alone on an empty input and otherwise
adds the length of its input to it, wrapped to 32 bits. -/
theorem Append_data_sent (s : TransparentTransmissionBuffer) (d : List Byte) :
    (Append s d).data_sent_ = countAfter s.data_sent_ d.length := by
  unfold Append countAfter
  by_cases hc : d.length = 0
  · simp [hc]
  · simp only [hc, if_false]
    split
    · split <;> rfl
    · rfl

/-- The inputs recorded along a run are the inputs of its `Append` calls. -/
theorem runCalls_inputs (M : Nat) (calls : List Call) :
    ∀ r : Run, (runCalls M r calls).inputs = r.inputs ++ inputsOf calls := by
  induction calls with
  | nil => intro r; simp [runCalls, inputsOf]
  | cons c cs ih =>
    intro r
    show (runCalls M (step M r c) cs).inputs = r.inputs ++ inputsOf (c :: cs)
    rw [ih]
    cases c with
    | append d => simp [step, inputsOf]
    | flush f => simp [step, inputsOf]

/-- Along a run, `data_sent_` moves by the lengths of the inputs appended, wrapped
to 32 bits. -/
theorem runCalls_data_sent (M : Nat) (calls : List Call) :
    ∀ r : Run, (runCalls M r calls).state.data_sent_
      = countAfter r.state.data_sent_ ((inputsOf calls).map List.length).sum := by
  induction calls with
  | nil => intro r; simp [runCalls, inputsOf]
  | cons c cs ih =>
    intro r
    show (runCalls M (step M r c) cs).state.data_sent_
      = countAfter r.state.data_sent_ ((inputsOf (c :: cs)).map List.length).sum
    rw [ih]
    cases c with
    | append d =>
      simp only [step, Append_data_sent, inputsOf, List.map_cons, List.sum_cons, countAfter_add]
    | flush f =>
      simp only [step, Flush_data_sent, inputsOf]

/-- Two inputs of `n` bytes `'a'`, each appended and flushed with force: the
count moves by `n + n`, wrapped, and the inputs add up to `n + n` bytes. -/
theorem runCalls_two_inputs (M n : Nat) (s0 : TransparentTransmissionBuffer) :
    GetSize (runCalls M (startRun s0)
        [Call.append (List.replicate n 97), Call.flush true,
         Call.append (List.replicate n 97), Call.flush true]).state
      = countAfter s0.data_sent_ (n + n) ∧
    ((runCalls M (startRun s0)
        [Call.append (List.replicate n 97), Call.flush true,
         Call.append (List.replicate n 97), Call.flush true]).inputs.map List.length).sum
      = n + n := by
  constructor
  · unfold GetSize
    rw [runCalls_data_sent]
    simp [inputsOf, startRun]
  · rw [runCalls_inputs]
    simp [inputsOf, startRun]

/-- C18, as stated, fails: after Initialize on a receiving buffer, two inputs of
2^30 bytes each (each appended and flushed, MAX_LINE_LENGTH = 1000) add up to
2147483648 bytes, and GetSize returns -2147483648: `data_sent_` is a 32-bit
`int` and the addition in Append wraps. -/
theorem C18_bytes_total_wraps :
    GetSize (runCalls 1000 (startRun (InitializeFile (construct false) (some [])).2)
        [Call.append (List.replicate 1073741824 97), Call.flush true,
         Call.append (List.replicate 1073741824 97), Call.flush true]).state = -2147483648 ∧
    ((((runCalls 1000 (startRun (InitializeFile (construct false) (some [])).2)
        [Call.append (List.replicate 1073741824 97), Call.flush true,
         Call.append (List.replicate 1073741824 97), Call.flush true]).inputs.map
          List.length).sum : Nat) : Int) = 2147483648 := by
  obtain ⟨h1, h2⟩ := runCalls_two_inputs 1000 1073741824
    (InitializeFile (construct false) (some [])).2
  have h0 : (InitializeFile (construct false) (some [])).2.data_sent_ = 0 := rfl
  constructor
  · rw [h1, h0]
    unfold countAfter wrapInt32
    norm_num
  · rw [h2]
    norm_num

/-- C18, amended: after any sequence of Append and Flush calls following either
overload of Initialize, in either direction, whose inputs add up to at most
2147483647 bytes (the largest value of the `int` that holds the count),
bytes_total (the value GetSize returns) equals the sum of the lengths of all
inputs passed to Append; Flush never changes it, Append changes it by the
length of its input only (wrapped to 32 bits), whether or not it trims a
terminator, and an Append of zero bytes changes no field. -/
theorem C18_bytes_total_within_int (M : Nat) (s : TransparentTransmissionBuffer)
    (calls : List Call)
    (hfit : ((inputsOf calls).map List.length).sum ≤ 2147483647) :
    (∀ queue,
      (runCalls M (startRun (InitializeConnection s queue).2) calls).inputs = inputsOf calls ∧
      GetSize (runCalls M (startRun (InitializeConnection s queue).2) calls).state
        = ((((runCalls M (startRun (InitializeConnection s queue).2) calls).inputs.map
              List.length).sum : Nat) : Int)) ∧
    (∀ existing,
      (runCalls M (startRun (InitializeFile s (some existing)).2) calls).inputs = inputsOf calls ∧
      GetSize (runCalls M (startRun (InitializeFile s (some existing)).2) calls).state
        = ((((runCalls M (startRun (InitializeFile s (some existing)).2) calls).inputs.map
              List.length).sum : Nat) : Int)) ∧
    (∀ f, (Flush M s f).state.data_sent_ = s.data_sent_) ∧
    (∀ d, (Append s d).data_sent_ = countAfter s.data_sent_ d.length) ∧
    Append s [] = s := by
  have hcount : countAfter 0 ((inputsOf calls).map List.length).sum
      = ((((inputsOf calls).map List.length).sum : Nat) : Int) := by
    have hfit' : (0 : Int) + ((((inputsOf calls).map List.length).sum : Nat) : Int)
        ≤ 2147483647 := by
      rw [Int.zero_add]
      exact_mod_cast hfit
    rw [countAfter_small 0 _ (le_refl _) hfit', Int.zero_add]
  refine ⟨fun queue => ?_, fun existing => ?_, fun f => Flush_data_sent M s f,
    fun d => Append_data_sent s d, rfl⟩
  · have hi := runCalls_inputs M calls (startRun (InitializeConnection s queue).2)
    have hd := runCalls_data_sent M calls (startRun (InitializeConnection s queue).2)
    have h0 : (startRun (InitializeConnection s queue).2).state.data_sent_ = 0 := rfl
    have hi0 : (startRun (InitializeConnection s queue).2).inputs = [] := rfl
    rw [hi0, List.nil_append] at hi
    rw [h0, hcount] at hd
    exact ⟨hi, by unfold GetSize; rw [hd, hi]⟩
  · have hi := runCalls_inputs M calls (startRun (InitializeFile s (some existing)).2)
    have hd := runCalls_data_sent M calls (startRun (InitializeFile s (some existing)).2)
    have h0 : (startRun (InitializeFile s (some existing)).2).state.data_sent_ = 0 := rfl
    have hi0 : (startRun (InitializeFile s (some existing)).2).inputs = [] := rfl
    rw [hi0, List.nil_append] at hi
    rw [h0, hcount] at hd
    exact ⟨hi, by unfold GetSize; rw [hd, hi]⟩

/-- C18, amended, at a receiving buffer initialised with an empty file,
MAX_LINE_LENGTH = 1000, and the calls Append('a' CR LF), Flush(false),
Append('.' CR LF), Flush(true): 6 bytes accepted. -/
theorem C18_bytes_total_within_int_witness :
    ((inputsOf [Call.append [97, 13, 10], Call.flush false, Call.append [46, 13, 10],
        Call.flush true]).map List.length).sum ≤ 2147483647 ∧
    GetSize (runCalls 1000 (startRun (InitializeFile (construct false) (some [])).2)
        [Call.append [97, 13, 10], Call.flush false, Call.append [46, 13, 10],
         Call.flush true]).state = 6 ∧
    GetSize (runCalls 1000 (startRun (InitializeFile (construct false) (some [])).2)
        [Call.append [97, 13, 10], Call.flush false, Call.append [46, 13, 10],
         Call.flush true]).state
      = ((((runCalls 1000 (startRun (InitializeFile (construct false) (some [])).2)
            [Call.append [97, 13, 10], Call.flush false, Call.append [46, 13, 10],
             Call.flush true]).inputs.map List.length).sum : Nat) : Int) :=
  ⟨by decide, by decide,
   ((C18_bytes_total_within_int 1000 (construct false)
      [Call.append [97, 13, 10], Call.flush false, Call.append [46, 13, 10], Call.flush true]
      (by decide)).2.1 []).2⟩

/-! ## C19: the file write decision -/

/-- In the receiving direction with an open file, the loop body appends the
un-stuffed segment to the file exactly when the write decision allows it. -/
theorem flushAt_content_receiving (s : TransparentTransmissionBuffer) (i : Nat)
    (hr : s.is_sending_ = false) (hopen : s.file_.isOpen = true) :
    (flushAt s i).state.file_.content
      = s.file_.content ++
          (if writeAllowed s then RemoveTransmissionPeriod_ (s.buffer_.take (i + 1)) else []) := by
  unfold flushAt SaveToFile_ writeAllowed File.Write
  simp only [hr, hopen]
  by_cases hq : 0 < s.max_size_kb_ ∧ s.max_size_kb_ < Int.tdiv s.data_sent_ 1024
  · simp [hq]
  · by_cases hc : s.cancel_transmission_ = false
    · simp [hq, hc]
    · simp [hq, hc]

/-- Once cancelled, the loop body leaves the file as it was. -/
theorem flushAt_content_cancelled (s : TransparentTransmissionBuffer) (i : Nat)
    (hc : s.cancel_transmission_ = true) :
    (flushAt s i).state.file_.content = s.file_.content := by
  unfold flushAt SaveToFile_
  simp only [hc]
  split
  · split <;> rfl
  · split
    · rfl
    · simp

/-- Once cancelled, `Flush` keeps the object cancelled and writes nothing. -/
theorem Flush_cancelled (M : Nat) (s : TransparentTransmissionBuffer) (f : Bool)
    (hc : s.cancel_transmission_ = true) :
    (Flush M s f).state.cancel_transmission_ = true ∧
    (Flush M s f).state.file_.content = s.file_.content := by
  have hc1 : (abuseCheck M s).cancel_transmission_ = true := by
    rw [abuseCheck_cancel, hc]; rfl
  rw [Flush_eq]
  split
  · exact ⟨hc, rfl⟩
  · cases findSplit (abuseCheck M s).buffer_ (f || decide (M < s.buffer_.length))
        ((abuseCheck M s).buffer_.length - M) (abuseCheck M s).buffer_.length with
    | none => simp [hc1]
    | some i =>
      simp only [closeWhenEnded_cancel, closeWhenEnded_content, flushAt_cancel]
      exact ⟨hc1, by rw [flushAt_content_cancelled _ i hc1, abuseCheck_file]⟩

/-- The method `Append` touches neither the cancellation flag nor the file. -/
theorem Append_cancel_file (s : TransparentTransmissionBuffer) (d : List Byte) :
    (Append s d).cancel_transmission_ = s.cancel_transmission_ ∧
    (Append s d).file_ = s.file_ := by
  unfold Append
  by_cases hc : d.length = 0
  · simp [hc]
  · simp only [hc, if_false]
    split
    · split <;> exact ⟨rfl, rfl⟩
    · exact ⟨rfl, rfl⟩

/-- Along a run that starts cancelled, the file never changes. -/
theorem runCalls_cancelled (M : Nat) (calls : List Call) :
    ∀ r : Run, r.state.cancel_transmission_ = true →
      (runCalls M r calls).state.cancel_transmission_ = true ∧
      (runCalls M r calls).state.file_.content = r.state.file_.content := by
  induction calls with
  | nil => intro r h; exact ⟨h, rfl⟩
  | cons c cs ih =>
    intro r h
    have hstep : (step M r c).state.cancel_transmission_ = true ∧
        (step M r c).state.file_.content = r.state.file_.content := by
      cases c with
      | append d =>
        simp only [step]
        exact ⟨by rw [(Append_cancel_file r.state d).1]; exact h,
          by rw [(Append_cancel_file r.state d).2]⟩
      | flush f =>
        simp only [step]
        exact Flush_cancelled M r.state f h
    obtain ⟨h1, h2⟩ := ih (step M r c) hstep.1
    show (runCalls M (step M r c) cs).state.cancel_transmission_ = true ∧
      (runCalls M (step M r c) cs).state.file_.content = r.state.file_.content
    exact ⟨h1, h2.trans hstep.2⟩

/-- C19: in the receiving direction with an open file, a segment carved by Flush
is appended (un-stuffed) to the file exactly when, after that call's abuse
check, cancelled is false and the quota test does not fire, and the file is
left as it was otherwise; so nothing is written by the Flush whose buffer
exceeds MAX_LINE_LENGTH, the object is cancelled after it, and from a
cancelled object no later sequence of calls writes anything. -/
theorem C19_file_write_decision (M : Nat) (s : TransparentTransmissionBuffer) (f : Bool)
    (hr : s.is_sending_ = false) (hopen : s.file_.isOpen = true) :
    (∀ seg, (Flush M s f).ready = some seg →
      (Flush M s f).state.file_.content
        = s.file_.content ++
            (if writeAllowed (abuseCheck M s) then RemoveTransmissionPeriod_ seg else [])) ∧
    ((Flush M s f).ready = none → (Flush M s f).state.file_.content = s.file_.content) ∧
    (M < s.buffer_.length → (f = true ∨ GetRequiresFlush s = true) →
      (Flush M s f).state.file_.content = s.file_.content ∧
      (Flush M s f).state.cancel_transmission_ = true) ∧
    (∀ calls, (Flush M s f).state.cancel_transmission_ = true →
      (runCalls M (startRun (Flush M s f).state) calls).state.file_.content
        = (Flush M s f).state.file_.content) := by
  refine ⟨?_, ?_, ?_, fun calls hc => (runCalls_cancelled M calls _ hc).2⟩
  · intro seg hseg
    rw [Flush_eq] at hseg ⊢
    split at hseg
    · simp at hseg
    · rename_i hgate
      rw [if_neg hgate]
      cases hfs : findSplit (abuseCheck M s).buffer_ (f || decide (M < s.buffer_.length))
          ((abuseCheck M s).buffer_.length - M) (abuseCheck M s).buffer_.length with
      | none => rw [hfs] at hseg; simp at hseg
      | some i =>
        rw [hfs] at hseg
        simp only [closeWhenEnded_ready, flushAt_ready, Option.some.injEq] at hseg
        simp only [closeWhenEnded_content]
        rw [flushAt_content_receiving _ i (by simpa using hr) (by simpa using hopen), hseg,
          abuseCheck_file]
  · intro hnone
    rw [Flush_eq] at hnone ⊢
    split at hnone
    · rename_i hgate
      rw [if_pos hgate]
    · rename_i hgate
      rw [if_neg hgate]
      cases hfs : findSplit (abuseCheck M s).buffer_ (f || decide (M < s.buffer_.length))
          ((abuseCheck M s).buffer_.length - M) (abuseCheck M s).buffer_.length with
      | none => simp
      | some i => rw [hfs] at hnone; simp at hnone
  · intro hlong hgo
    have hc1 : (abuseCheck M s).cancel_transmission_ = true := by
      rw [abuseCheck_cancel]; simp [hlong]
    have hgate : ¬ (GetRequiresFlush s = false ∧ f = false) := by
      rintro ⟨h1, h2⟩
      rcases hgo with h | h
      · rw [h2] at h; exact Bool.noConfusion h
      · rw [h1] at h; exact Bool.noConfusion h
    rw [Flush_eq, if_neg hgate]
    cases findSplit (abuseCheck M s).buffer_ (f || decide (M < s.buffer_.length))
        ((abuseCheck M s).buffer_.length - M) (abuseCheck M s).buffer_.length with
    | none => simp [hc1]
    | some i =>
      simp only [closeWhenEnded_cancel, closeWhenEnded_content, flushAt_cancel]
      exact ⟨by rw [flushAt_content_cancelled _ i hc1, abuseCheck_file], hc1⟩

/-- C19 at the receiving buffer with an open empty file and no quota that holds
`. a LF`: with MAX_LINE_LENGTH = 1000 the forced flush writes `a LF`; with
MAX_LINE_LENGTH = 2 the same flush cancels and writes nothing. -/
theorem C19_file_write_decision_witness :
    (Append (InitializeFile (construct false) (some [])).2 [46, 97, 10]).is_sending_ = false ∧
    (Append (InitializeFile (construct false) (some [])).2 [46, 97, 10]).file_.isOpen = true ∧
    (Flush 1000 (Append (InitializeFile (construct false) (some [])).2 [46, 97, 10])
        true).state.file_.content = [97, 10] ∧
    (Flush 2 (Append (InitializeFile (construct false) (some [])).2 [46, 97, 10])
        true).state.file_.content = [] ∧
    (Flush 2 (Append (InitializeFile (construct false) (some [])).2 [46, 97, 10])
        true).state.cancel_transmission_ = true := by
  have h1 := (C19_file_write_decision 1000
    (Append (InitializeFile (construct false) (some [])).2 [46, 97, 10]) true
    (by decide) (by decide)).1 [46, 97, 10] (by decide)
  have h2 := (C19_file_write_decision 2
    (Append (InitializeFile (construct false) (some [])).2 [46, 97, 10]) true
    (by decide) (by decide)).2.2.1 (by decide) (Or.inl rfl)
  refine ⟨by decide, by decide, ?_, ?_, h2.2⟩
  · rw [h1]; decide
  · rw [h2.1]; decide

/-! ## C20: the exact domain of the round trip -/

/-- C20: for every byte sequence x, with no assumption on line endings,
un-stuffing the stuffed x gives x back if and only if x does not begin with
the three bytes '.', LF, '.'. -/
theorem C20_roundtrip_exact_domain (x : List Byte) :
    RemoveTransmissionPeriod_ (InsertTransmissionPeriod_ x) = x ↔
      x.take 3 ≠ [dot, lf, dot] := by
  rw [roundtrip_iff]
  constructor
  · intro h htake
    apply h
    refine ⟨x.drop 3, ?_⟩
    have := List.take_append_drop 3 x
    rw [htake] at this
    exact this.symm
  · rintro h ⟨t, rfl⟩
    exact h rfl

/-! ## C5: chunking and a dot after an empty line -/

theorem stuffFrom_no_dot (l : List Byte) (h : ∀ c ∈ l, c ≠ dot) :
    ∀ (i : Nat) (p : Byte), stuffFrom i p l = l := by
  induction l with
  | nil => intro i p; rfl
  | cons c t ih =>
    intro i p
    have hc : c ≠ dot := h c (List.mem_cons_self _ _)
    have ht : ∀ x ∈ t, x ≠ dot := fun x hx => h x (List.mem_cons_of_mem _ hx)
    simp [stuffFrom, hc, ih ht]

theorem InsertTransmissionPeriod_no_dot (l : List Byte) (h : ∀ c ∈ l, c ≠ dot) :
    InsertTransmissionPeriod_ l = l := by
  rw [InsertTransmissionPeriod_eq, stuffFrom_no_dot l h]

/-- Stuffing passes a dot-free stretch and the line feed that closes it
unchanged, and goes on after it with that line feed as the previous byte. -/
theorem stuffFrom_no_dot_lf (l1 : List Byte) (h : ∀ c ∈ l1, c ≠ dot) (l2 : List Byte) :
    ∀ (i : Nat) (p : Byte),
      stuffFrom i p (l1 ++ lf :: l2) = l1 ++ lf :: stuffFrom (i + l1.length + 1) lf l2 := by
  induction l1 with
  | nil =>
    intro i p
    have hlf : lf ≠ dot := by decide
    simp [stuffFrom, hlf]
  | cons c t ih =>
    intro i p
    have hc : c ≠ dot := h c (List.mem_cons_self _ _)
    have ht : ∀ x ∈ t, x ≠ dot := fun x hx => h x (List.mem_cons_of_mem _ hx)
    have hi : i + 1 + t.length + 1 = i + (t.length + 1) + 1 := by omega
    simp [stuffFrom, hc, ih ht, hi]

theorem stuffFrom_dot_line (i : Nat) (hi : 2 < i) :
    stuffFrom i lf [dot, 120, cr, lf] = [dot, dot, 120, cr, lf] := by
  have h0 : i ≠ 0 := by omega
  have h1 : (120 : Byte) ≠ dot := by decide
  have h2 : cr ≠ dot := by decide
  have h3 : lf ≠ dot := by decide
  simp [stuffFrom, hi, h1, h2, h3]

theorem mailLine_no_dot (n : Nat) : ∀ c ∈ List.replicate n 97 ++ [cr, lf], c ≠ dot := by
  intro c hc
  rcases List.mem_append.mp hc with h | h
  · exact replicate_no_dot n c h
  · rcases List.mem_cons.mp h with h1 | h1
    · rw [h1]; decide
    · rw [List.mem_singleton.mp h1]; decide

theorem mailLine_last (n : Nat) :
    byteAt (List.replicate n 97 ++ [cr, lf]) ((List.replicate n 97 ++ [cr, lf]).length - 1)
      = lf := by
  have h := byteAt_snoc (List.replicate n 97 ++ [cr]) lf
  have e : List.replicate n 97 ++ [cr] ++ [lf] = List.replicate n 97 ++ [cr, lf] := by simp
  rw [e] at h
  have hl : (List.replicate n 97 ++ [cr, lf]).length - 1
      = (List.replicate n 97 ++ [cr]).length + 1 - 1 := by simp
  rw [hl]
  exact h

/-- A line of `n` bytes `'a'` CR LF in a first chunk and the lines CR LF and
`.x` CR LF in a second, with the first chunk above the flush threshold and
the whole within the ceiling: nothing is cancelled; the chunked run carves the
second chunk as a segment of its own, where the dot sits at offset 2 and is
not doubled, the single-call run carves one segment, where it is. -/
theorem chunked_dot_after_empty_line (M n : Nat) (h4 : 40000 < n + 2) (hM : n + 8 ≤ M) :
    delivered (runChunked M freshSender
        [List.replicate n 97 ++ [cr, lf], [cr, lf, dot, 120, cr, lf]])
      = List.replicate n 97 ++ [cr, lf] ++ [cr, lf, dot, 120, cr, lf] ∧
    delivered (runWhole M freshSender
        [List.replicate n 97 ++ [cr, lf], [cr, lf, dot, 120, cr, lf]].flatten)
      = List.replicate n 97 ++ [cr, lf] ++ [cr, lf, dot, dot, 120, cr, lf] ∧
    (runChunked M freshSender
        [List.replicate n 97 ++ [cr, lf], [cr, lf, dot, 120, cr, lf]]).cancel_transmission_
      = false ∧
    (runWhole M freshSender
        [List.replicate n 97 ++ [cr, lf], [cr, lf, dot, 120, cr, lf]].flatten).cancel_transmission_
      = false := by
  have hs : freshSender.is_sending_ = true := rfl
  have hM1 : 1 ≤ M := by omega
  have hI1 : InsertTransmissionPeriod_ (List.replicate n 97 ++ [cr, lf])
      = List.replicate n 97 ++ [cr, lf] :=
    InsertTransmissionPeriod_no_dot _ (mailLine_no_dot n)
  have hI2 : InsertTransmissionPeriod_ [cr, lf, dot, 120, cr, lf] = [cr, lf, dot, 120, cr, lf] := by
    decide
  have hI3 : InsertTransmissionPeriod_
      (List.replicate n 97 ++ [cr, lf] ++ [cr, lf, dot, 120, cr, lf])
      = List.replicate n 97 ++ [cr, lf] ++ [cr, lf, dot, dot, 120, cr, lf] := by
    have e : List.replicate n 97 ++ [cr, lf] ++ [cr, lf, dot, 120, cr, lf]
        = (List.replicate n 97 ++ [cr, lf] ++ [cr]) ++ lf :: [dot, 120, cr, lf] := by simp
    have hnd : ∀ c ∈ List.replicate n 97 ++ [cr, lf] ++ [cr], c ≠ dot := by
      intro c hc
      rcases List.mem_append.mp hc with h | h
      · exact mailLine_no_dot n c h
      · rw [List.mem_singleton.mp h]; decide
    rw [InsertTransmissionPeriod_eq, e, stuffFrom_no_dot_lf _ hnd,
      stuffFrom_dot_line _ (by simp)]
    simp
  have hlen1 : (List.replicate n 97 ++ [cr, lf]).length = n + 2 := by simp
  have hlen3 : (List.replicate n 97 ++ [cr, lf] ++ [cr, lf, dot, 120, cr, lf]).length = n + 8 := by
    simp
  -- the chunked run
  have hA1 : Append freshSender (List.replicate n 97 ++ [cr, lf])
      = { freshSender with data_sent_ := countAfter freshSender.data_sent_ (n + 2),
                           buffer_ := List.replicate n 97 ++ [cr, lf] } := by
    rw [Append_sending _ _ hs, hlen1]; rfl
  have hF1 := Flush_last_sending M (Append freshSender (List.replicate n 97 ++ [cr, lf])) false []
    hM1 (Or.inl (by rw [hA1]; simp [GetRequiresFlush]; omega)) (by rw [hA1]; simp)
    (Or.inl (by rw [hA1]; exact mailLine_last n)) (by rw [hA1]; rfl) (by rw [hA1]; rfl)
    (by rw [hA1]; rfl)
  rw [abuseCheck_within M _ (by rw [hA1]; simp only [hlen1]; omega)] at hF1
  rw [hA1] at hF1
  simp only [List.nil_append, hI1] at hF1
  have hC : runChunked M freshSender
      [List.replicate n 97 ++ [cr, lf], [cr, lf, dot, 120, cr, lf]]
      = { freshSender with
          data_sent_ := countAfter (countAfter freshSender.data_sent_ (n + 2)) 6
          buffer_ := []
          last_send_ended_with_newline_ := true
          tcp_connection_ := some [List.replicate n 97 ++ [cr, lf], [cr, lf, dot, 120, cr, lf]] } := by
    simp only [runChunked, feedChunks, hA1, hF1]
    rw [Append_sending _ _ (by simp [hs])]
    rw [Flush_gate M _ (by simp [GetRequiresFlush, freshSender, InitializeConnection, construct])]
    rw [Flush_last_sending M _ true [List.replicate n 97 ++ [cr, lf]] hM1 (Or.inr rfl) (by simp)
      (Or.inr (Or.inl rfl)) (by simp [hs]) (by simp)
      (by simp [freshSender, InitializeConnection, construct])]
    rw [abuseCheck_within M _ (by simp; omega)]
    have hlast2 : byteAt [cr, lf, dot, 120, cr, lf] 5 = lf := by decide
    simp [hI2, hlast2]
  -- the single-call run
  have hA : Append freshSender
      [List.replicate n 97 ++ [cr, lf], [cr, lf, dot, 120, cr, lf]].flatten
      = { freshSender with data_sent_ := countAfter freshSender.data_sent_ (n + 8),
                           buffer_ := List.replicate n 97 ++ [cr, lf]
                             ++ [cr, lf, dot, 120, cr, lf] } := by
    have e : [List.replicate n 97 ++ [cr, lf], [cr, lf, dot, 120, cr, lf]].flatten
        = List.replicate n 97 ++ [cr, lf] ++ [cr, lf, dot, 120, cr, lf] := by simp
    rw [e, Append_sending _ _ hs, hlen3]; rfl
  have hlast : byteAt (List.replicate n 97 ++ [cr, lf] ++ [cr, lf, dot, 120, cr, lf])
      ((List.replicate n 97 ++ [cr, lf] ++ [cr, lf, dot, 120, cr, lf]).length - 1) = lf := by
    have h := byteAt_snoc (List.replicate n 97 ++ [cr, lf] ++ [cr, lf, dot, 120, cr]) lf
    have e : List.replicate n 97 ++ [cr, lf] ++ [cr, lf, dot, 120, cr] ++ [lf]
        = List.replicate n 97 ++ [cr, lf] ++ [cr, lf, dot, 120, cr, lf] := by simp
    rw [e] at h
    have hl : (List.replicate n 97 ++ [cr, lf] ++ [cr, lf, dot, 120, cr, lf]).length - 1
        = (List.replicate n 97 ++ [cr, lf] ++ [cr, lf, dot, 120, cr]).length + 1 - 1 := by simp
    rw [hl]
    exact h
  have hG1 := Flush_last_sending M
    (Append freshSender [List.replicate n 97 ++ [cr, lf], [cr, lf, dot, 120, cr, lf]].flatten)
    false [] hM1 (Or.inl (by rw [hA]; simp [GetRequiresFlush]; omega)) (by rw [hA]; simp)
    (Or.inl (by rw [hA]; exact hlast)) (by rw [hA]; rfl) (by rw [hA]; rfl) (by rw [hA]; rfl)
  rw [abuseCheck_within M _ (by rw [hA]; simp only [hlen3]; omega)] at hG1
  rw [hA] at hG1
  simp only [List.nil_append, hI3] at hG1
  have hW : runWhole M freshSender
      [List.replicate n 97 ++ [cr, lf], [cr, lf, dot, 120, cr, lf]].flatten
      = { freshSender with
          data_sent_ := countAfter freshSender.data_sent_ (n + 8)
          buffer_ := []
          last_send_ended_with_newline_ := true
          tcp_connection_ :=
            some [List.replicate n 97 ++ [cr, lf] ++ [cr, lf, dot, dot, 120, cr, lf]] } := by
    simp only [runWhole, hA, hG1]
    rw [Flush_empty M _ true (Or.inr rfl) (by simp)]
    have hlast3 : byteAt (List.replicate n 97 ++ [cr, lf, cr, lf, dot, 120, cr, lf]) (n + 7)
        = lf := by
      have h := byteAt_append_add (List.replicate n 97) [cr, lf, cr, lf, dot, 120, cr, lf] 7
      simp only [List.length_replicate] at h
      rw [h]
      decide
    unfold closeWhenEnded
    simp [freshSender, InitializeConnection, construct, hlast3]
  rw [hC, hW]
  refine ⟨by simp [delivered], by simp [delivered], rfl, rfl⟩

/-- C5 at the input of a line of 40000 bytes `'a'` CR LF, an empty line CR LF and
the line `.x` CR LF, with MAX_LINE_LENGTH = 100000, split into the chunks
`a…a CR LF` and `CR LF .x CR LF`: nothing is cancelled in either run; the
chunked run delivers the dot single, the single-call run delivers it doubled,
so the delivered bytes depend on the chunking. -/
theorem C5_chunking_changes_stuffing :
    delivered (runChunked 100000 freshSender
        [List.replicate 40000 97 ++ [cr, lf], [cr, lf, dot, 120, cr, lf]])
      = List.replicate 40000 97 ++ [cr, lf] ++ [cr, lf, dot, 120, cr, lf] ∧
    delivered (runWhole 100000 freshSender
        [List.replicate 40000 97 ++ [cr, lf], [cr, lf, dot, 120, cr, lf]].flatten)
      = List.replicate 40000 97 ++ [cr, lf] ++ [cr, lf, dot, dot, 120, cr, lf] ∧
    (runChunked 100000 freshSender
        [List.replicate 40000 97 ++ [cr, lf], [cr, lf, dot, 120, cr, lf]]).cancel_transmission_
      = false ∧
    (runWhole 100000 freshSender
        [List.replicate 40000 97 ++ [cr, lf],
         [cr, lf, dot, 120, cr, lf]].flatten).cancel_transmission_ = false ∧
    ¬ chunkIndependent 100000 [List.replicate 40000 97 ++ [cr, lf], [cr, lf, dot, 120, cr, lf]] := by
  obtain ⟨h1, h2, h3, h4⟩ := chunked_dot_after_empty_line 100000 40000 (by norm_num) (by norm_num)
  refine ⟨h1, h2, h3, h4, ?_⟩
  intro h
  unfold chunkIndependent at h
  rw [h1, h2] at h
  exact absurd (List.append_cancel_left h) (by decide)

end HM
